import Mathlib

/-!
Verification of the shawl service wrapper (restart policy, SCM exit-code
mapping, child environment construction, the service-host supervise loop,
and the add-to-binPath round trip) against its natural-language
specification.  Rust strings are embedded as lists of characters.
-/

namespace Shawl

/-- Strings of the Rust source are embedded as lists of characters. -/
abbrev Str := List Char

/-- Conversion helper so that embedded definitions can use string literals. -/
def str (s : String) : Str := s.toList

/-! ## Restart policy (service.rs lines 33-51, duplicated in main.rs lines 233-251) -/

/-- Embedding of should_restart_exited_command from service.rs lines 33-47
(identical copy in main.rs lines 233-247).  Decides whether an exited child
is relaunched, from its exit code and the four restart-policy inputs. -/
def should_restart_exited_command (code : Int) (restart : Bool) (no_restart : Bool)
    (restart_if : List Int) (restart_if_not : List Int) : Bool :=
  if !restart_if.isEmpty then
    restart_if.contains code
  else if !restart_if_not.isEmpty then
    !restart_if_not.contains code
  else
    restart || (!no_restart && code != 0)

/-- Embedding of should_restart_terminated_command from service.rs lines 49-51
(identical copy in main.rs lines 249-251).  The second argument is unused in
the source as well. -/
def should_restart_terminated_command (restart : Bool) (_no_restart : Bool) : Bool :=
  restart

/-- Restart decision table transcribed literally from the specification
(section 4.3), for comparison with the source function. -/
def spec_restart_table (code : Int) (restart : Bool) (no_restart : Bool)
    (restart_if : List Int) (restart_ifNot : List Int) : Bool :=
  if restart_if ≠ [] then decide (code ∈ restart_if)
  else if restart_ifNot ≠ [] then decide (code ∉ restart_ifNot)
  else if restart then true
  else if no_restart then false
  else decide (code ≠ 0)

/-! ## SCM exit-code mapping (service.rs lines 90, 343-354, 371-377) -/

/-- Embedding of the windows-service ServiceExitCode values used by the host. -/
inductive ServiceExitCode
  | noError
  | serviceSpecific (code : Nat)
  | win32 (code : Nat)
deriving DecidableEq, Repr

/-- Embedding of the Rust cast (code as u32): two's-complement wraparound of an
i32 value into the unsigned 32-bit range. -/
def asU32 (code : Int) : Nat := (code % 4294967296).toNat

/-- Embedding of the exit-code mapping that run_service applies at both sites
where a child exit code is observed (service.rs lines 349-353 and 373-377):
NO_ERROR when the pass list contains the code, else ServiceSpecific(code as u32). -/
def mapExitCode (pass : List Int) (code : Int) : ServiceExitCode :=
  if pass.contains code then .noError else .serviceSpecific (asU32 code)

/-- Embedding of the pass-list default (service.rs line 90):
opts.pass.unwrap_or_else(|| vec![0]). -/
def effectivePass (pass : Option (List Int)) : List Int := pass.getD [0]

/-! ## Quoting for the constructed binPath (control.rs lines 131-141) -/

/-- Embedding of quote from control.rs lines 135-141: wrap the token in double
quotes when it contains a space, otherwise return it unchanged. -/
def quote (text : Str) : Str :=
  if text.contains ' ' then '"' :: text ++ ['"'] else text

/-- Embedding of prepare_command from control.rs lines 131-133. -/
def prepare_command (command : List Str) : List Str := command.map quote

/-! ## Claim theorems on the pure decision functions -/

/-- Helper relating the boolean membership test of the embedding to
propositional membership. -/
theorem contains_eq_decide_mem (l : List Int) (a : Int) :
    l.contains a = decide (a ∈ l) := by
  rw [Bool.eq_iff_iff]
  simp [List.elem_iff]

/-- C1: for every exit code and flag configuration, the source function
should_restart_exited_command returns exactly the decision of the
specification's restart table, and (being a total Lean function) it is total
and deterministic over all such inputs. -/
theorem restart_exited_matches_spec_table (code : Int) (restart no_restart : Bool)
    (restart_if restart_if_not : List Int) :
    should_restart_exited_command code restart no_restart restart_if restart_if_not =
      spec_restart_table code restart no_restart restart_if restart_if_not := by
  unfold should_restart_exited_command spec_restart_table
  rcases restart_if with _ | ⟨a, l⟩
  · rcases restart_if_not with _ | ⟨b, m⟩
    · cases restart <;> cases no_restart <;> (simp [bne]; try rfl)
    · simp [contains_eq_decide_mem]
  · simp [contains_eq_decide_mem]

/-- C4: for a Terminated outcome the restart decision equals the restart flag
alone, for every value of no_restart; the code sets are not inputs of the
source function at all. -/
theorem restart_terminated_is_restart_flag (restart no_restart : Bool) :
    should_restart_terminated_command restart no_restart = restart := rfl

/-- C10: should_restart_exited_command is defined for every input, including
combinations the CLI layer rejects; whenever restart_if is non-empty the
result is restart_if.contains code, so restart_if_not and both boolean flags
are ignored. -/
theorem restart_exited_restart_if_precedence (code : Int) (restart no_restart : Bool)
    (restart_if restart_if_not : List Int) (h : restart_if ≠ []) :
    should_restart_exited_command code restart no_restart restart_if restart_if_not =
        restart_if.contains code ∧
      ∀ (restart' no_restart' : Bool) (restart_if_not' : List Int),
        should_restart_exited_command code restart no_restart restart_if restart_if_not =
          should_restart_exited_command code restart' no_restart' restart_if restart_if_not' := by
  unfold should_restart_exited_command
  cases restart_if with
  | nil => exact absurd rfl h
  | cons a l => simp

/-- Witness for C10 at a concrete input: restart_if = [3, 5] with code 5,
restart_if_not = [5], restart = false, no_restart = true. -/
theorem restart_exited_restart_if_precedence_witness :
    should_restart_exited_command 5 false true [3, 5] [5] = ([3, 5] : List Int).contains 5 ∧
      ∀ (restart' no_restart' : Bool) (restart_if_not' : List Int),
        should_restart_exited_command 5 false true [3, 5] [5] =
          should_restart_exited_command 5 restart' no_restart' [3, 5] restart_if_not' :=
  restart_exited_restart_if_precedence 5 false true [3, 5] [5] (by decide)

/-- C2: whenever the host maps an observed child exit code to an SCM exit code
through mapExitCode (the expression run_service evaluates both in the
once-per-second supervising loop and during the graceful-stop deadline wait),
the result is NoError iff the code is in the effective pass list, which is
[0] exactly when --pass was not given. -/
theorem pass_code_mapping (pass : Option (List Int)) (code : Int) :
    (mapExitCode (effectivePass pass) code = .noError ↔ code ∈ effectivePass pass) ∧
      (pass = none → effectivePass pass = [0]) := by
  refine ⟨?_, fun h => by subst h; rfl⟩
  unfold mapExitCode
  by_cases h : (effectivePass pass).contains code = true
  · rw [if_pos h]
    exact ⟨fun _ => List.elem_iff.mp h, fun _ => rfl⟩
  · rw [if_neg h]
    exact ⟨fun hx => ServiceExitCode.noConfusion hx,
           fun hmem => absurd (List.elem_iff.mpr hmem) h⟩

/-- Witness for C2 at a concrete input: default pass list and exit code 0. -/
theorem pass_code_mapping_witness :
    (mapExitCode (effectivePass none) 0 = .noError ↔ (0 : Int) ∈ effectivePass none) ∧
      ((none : Option (List Int)) = none → effectivePass none = [0]) :=
  pass_code_mapping none 0

/-- C9: a token is rendered in the constructed binPath as itself wrapped in
double quotes iff it contains a space, and unchanged (in particular, equal to
itself) iff it does not. -/
theorem quote_iff_space (t : Str) :
    (t.contains ' ' = true → quote t = '"' :: t ++ ['"']) ∧
      (t.contains ' ' = false → quote t = t) ∧
      (quote t = t ↔ t.contains ' ' = false) := by
  by_cases hs : t.contains ' ' = true
  · have hq : quote t = '"' :: t ++ ['"'] := by unfold quote; rw [if_pos hs]
    refine ⟨fun _ => hq, ?_, ?_, ?_⟩
    · intro h
      rw [h] at hs
      cases hs
    · intro h
      exfalso
      rw [hq] at h
      have hlen := congrArg List.length h
      simp at hlen
      omega
    · intro h
      rw [h] at hs
      cases hs
  · have hf : t.contains ' ' = false := by simpa using hs
    have hq : quote t = t := by unfold quote; rw [if_neg hs]
    exact ⟨fun h => absurd h hs, fun _ => hq, fun _ => hf, fun _ => hq⟩

/-- Witness for C9 at concrete inputs: a token with a space is quoted. -/
theorem quote_iff_space_witness :
    quote (str "a b") = '"' :: (str "a b") ++ ['"'] :=
  (quote_iff_space (str "a b")).1 (by decide)

/-! ## Child environment and PATH composition (service.rs lines 186-230) -/

/-- Embedding of the join operation of Rust slices of strings
(slice::join with a one-character separator). -/
def joinWith (sep : Char) : List Str → Str
  | [] => []
  | [x] => x
  | x :: y :: xs => x ++ sep :: joinWith sep (y :: xs)

/-- Embedding of the path_env computation of run_service (service.rs lines
188 and 206-227): start from the inherited PATH of the wrapper, append the
simplified --path entries, prepend the simplified --path-prepend entries and
append the simplified cwd last.  The simplify argument stands for
crate::simplify_path, which run_service applies to each entry. -/
def buildPathEnv (simplify : Str → Str) (path path_prepend : List Str)
    (cwd : Option Str) (inherited : Option Str) : Option Str :=
  let p0 := inherited
  let p1 := if !path.isEmpty then
      some (match p0 with
        | some p => p ++ ';' :: joinWith ';' (path.map simplify)
        | none => joinWith ';' (path.map simplify))
    else p0
  let p2 := if !path_prepend.isEmpty then
      some (match p1 with
        | some p => joinWith ';' (path_prepend.map simplify) ++ ';' :: p
        | none => joinWith ';' (path_prepend.map simplify))
    else p1
  match cwd with
  | some c => some (match p2 with
      | some p => p ++ ';' :: simplify c
      | none => simplify c)
  | none => p2

/-- Embedding of the order in which run_service populates the child process
environment map (service.rs lines 203-205 then 228-230): first the --env
key/value pairs, then — when a composed PATH value exists — the PATH entry. -/
def childEnvAssignments (env : List (Str × Str)) (pathEnv : Option Str) :
    List (Str × Str) :=
  env ++ (match pathEnv with | some p => [(str "PATH", p)] | none => [])

/-- Embedding of the Rust std::process::Command environment-map semantics for
a sequence of env calls: the last write to a key wins. -/
def lookupEnv (assigns : List (Str × Str)) (key : Str) : Option Str :=
  (assigns.reverse.find? (fun kv => kv.fst == key)).map Prod.snd

/-- Segment list named by the specification for the effective PATH: prepend
entries first, then the inherited PATH, then the append entries, then the cwd
last of all; absent sources contribute no segment. -/
def spec_path_segments (simplify : Str → Str) (path path_prepend : List Str)
    (cwd : Option Str) (inherited : Option Str) : List Str :=
  path_prepend.map simplify ++ inherited.toList ++ path.map simplify ++
    (cwd.map simplify).toList

/-- Helper: join distributes over the concatenation of two non-empty lists. -/
theorem joinWith_append (sep : Char) (xs ys : List Str) (hx : xs ≠ []) (hy : ys ≠ []) :
    joinWith sep (xs ++ ys) = joinWith sep xs ++ sep :: joinWith sep ys := by
  induction xs with
  | nil => exact absurd rfl hx
  | cons a l ih =>
    cases l with
    | nil =>
      cases ys with
      | nil => exact absurd rfl hy
      | cons b m => simp [joinWith]
    | cons a2 l2 =>
      have h2 := ih (List.cons_ne_nil a2 l2)
      have e1 : (a :: a2 :: l2) ++ ys = a :: a2 :: (l2 ++ ys) := by simp
      have e2 : joinWith sep (a :: a2 :: l2) = a ++ sep :: joinWith sep (a2 :: l2) := rfl
      have e3 : joinWith sep (a :: a2 :: (l2 ++ ys)) =
        a ++ sep :: joinWith sep (a2 :: (l2 ++ ys)) := rfl
      rw [List.cons_append] at h2
      rw [e1, e3, e2, h2]
      simp

/-- Helper: variant of the join distribution law with a leading element. -/
theorem joinWith_cons_append (sep : Char) (x : Str) (xs ys : List Str) (hy : ys ≠ []) :
    joinWith sep (x :: (xs ++ ys)) = joinWith sep (x :: xs) ++ sep :: joinWith sep ys := by
  have h := joinWith_append sep (x :: xs) ys (List.cons_ne_nil x xs) hy
  rw [List.cons_append] at h
  exact h

/-- Helper: the PATH entry is the final write of the child environment map,
so it determines the effective PATH whenever it exists. -/
theorem lookupEnv_childEnv_some (env : List (Str × Str)) (p : Str) :
    lookupEnv (childEnvAssignments env (some p)) (str "PATH") = some p := by
  simp [childEnvAssignments, lookupEnv, List.find?]

/-- C6: for every spawn configuration, the composed PATH value equals the
concatenation, joined by semicolons, of the prepend entries, the inherited
PATH, the append entries and the cwd in that order (each simplified as in the
source), with empty sources omitted; and whenever at least one segment
exists, that joined value is the effective PATH in the child environment. -/
theorem effective_path_composition (simplify : Str → Str) (env : List (Str × Str))
    (path path_prepend : List Str) (cwd inherited : Option Str) :
    buildPathEnv simplify path path_prepend cwd inherited =
      (if spec_path_segments simplify path path_prepend cwd inherited = [] then none
       else some (joinWith ';' (spec_path_segments simplify path path_prepend cwd inherited))) ∧
    (spec_path_segments simplify path path_prepend cwd inherited ≠ [] →
      lookupEnv
        (childEnvAssignments env (buildPathEnv simplify path path_prepend cwd inherited))
        (str "PATH") =
        some (joinWith ';' (spec_path_segments simplify path path_prepend cwd inherited))) := by
  have h1 : buildPathEnv simplify path path_prepend cwd inherited =
      (if spec_path_segments simplify path path_prepend cwd inherited = [] then none
       else some (joinWith ';' (spec_path_segments simplify path path_prepend cwd inherited))) := by
    rcases path with _ | ⟨p, ps⟩ <;> rcases path_prepend with _ | ⟨q, qs⟩ <;>
      rcases cwd with _ | c <;> rcases inherited with _ | i <;>
      simp [buildPathEnv, spec_path_segments, joinWith_append, joinWith_cons_append, joinWith]
  refine ⟨h1, fun hne => ?_⟩
  rw [h1, if_neg hne]
  exact lookupEnv_childEnv_some env _

/-- Witness for C6 at a concrete input: one append entry, one prepend entry,
a cwd and an inherited PATH. -/
theorem effective_path_composition_witness :
    spec_path_segments (fun s => s) [str "a"] [str "p"] (some (str "c")) (some (str "I")) ≠ [] ∧
      lookupEnv
        (childEnvAssignments []
          (buildPathEnv (fun s => s) [str "a"] [str "p"] (some (str "c")) (some (str "I"))))
        (str "PATH") =
        some (joinWith ';'
          (spec_path_segments (fun s => s) [str "a"] [str "p"] (some (str "c")) (some (str "I")))) :=
  ⟨by decide,
   (effective_path_composition (fun s => s) [] [str "a"] [str "p"] (some (str "c"))
      (some (str "I"))).2 (by decide)⟩

/-- Counterexample for C5: with an explicit --env entry for PATH and an
inherited PATH present, the composed PATH (written last, service.rs lines
228-230) overwrites the --env value (written first, lines 203-205), so the
env override does not take effect over the composed PATH. -/
theorem env_overrides_counterexample :
    lookupEnv
      (childEnvAssignments [(str "PATH", str "X")]
        (buildPathEnv (fun s => s) [] [] none (some (str "I"))))
      (str "PATH") = some (str "I") ∧
      some (str "I") ≠ some (str "X") := by
  constructor
  · rfl
  · decide

/-- C5 as amended: the --env overrides are applied before the PATH
composition, so the composed PATH value wins over any --env entry for PATH
whenever a composed value exists; the --env entries determine PATH only when
no composed value exists, and they always determine every other key. -/
theorem env_overrides_before_path (simplify : Str → Str) (env : List (Str × Str))
    (path path_prepend : List Str) (cwd inherited : Option Str) :
    (∀ p, buildPathEnv simplify path path_prepend cwd inherited = some p →
      lookupEnv
        (childEnvAssignments env (buildPathEnv simplify path path_prepend cwd inherited))
        (str "PATH") = some p) ∧
    (buildPathEnv simplify path path_prepend cwd inherited = none →
      lookupEnv
        (childEnvAssignments env (buildPathEnv simplify path path_prepend cwd inherited))
        (str "PATH") = lookupEnv env (str "PATH")) ∧
    (∀ k, k ≠ str "PATH" →
      lookupEnv
        (childEnvAssignments env (buildPathEnv simplify path path_prepend cwd inherited))
        k = lookupEnv env k) := by
  refine ⟨fun p hp => ?_, fun hn => ?_, fun k hk => ?_⟩
  · rw [hp]
    exact lookupEnv_childEnv_some env p
  · rw [hn]
    simp [childEnvAssignments]
  · cases hbp : buildPathEnv simplify path path_prepend cwd inherited with
    | none => simp [childEnvAssignments]
    | some p =>
      have hb : (str "PATH" == k) = false := by
        simpa using Ne.symm hk
      simp [childEnvAssignments, lookupEnv, List.find?, hb]

/-- Witness for C5 (amended) at a concrete input: composed PATH present wins,
and a non-PATH key still comes from the env overrides. -/
theorem env_overrides_before_path_witness :
    lookupEnv
      (childEnvAssignments [(str "A", str "1")]
        (buildPathEnv (fun s => s) [] [] none (some (str "I"))))
      (str "PATH") = some (str "I") ∧
      lookupEnv
        (childEnvAssignments [(str "A", str "1")]
          (buildPathEnv (fun s => s) [] [] none (some (str "I"))))
        (str "A") = lookupEnv [(str "A", str "1")] (str "A") :=
  ⟨(env_overrides_before_path (fun s => s) [(str "A", str "1")] [] [] none
      (some (str "I"))).1 (str "I") rfl,
   (env_overrides_before_path (fun s => s) [(str "A", str "1")] [] [] none
      (some (str "I"))).2.2 (str "A") (by decide)⟩

/-! ## The supervise loop of run_service (service.rs lines 76-431) -/

/-- Embedding of the ProcessStatus variants returned by check_process
(service.rs lines 16-31). -/
inductive ProcessStatus
  | running
  | exited (code : Int)
  | terminated
deriving DecidableEq, Repr

/-- Windows ERROR_PROCESS_ABORTED, the Win32 code the host reports for a
terminated child or a failed status poll. -/
def ERROR_PROCESS_ABORTED : Nat := 1067

/-- Outcome of the graceful-stop deadline wait (service.rs lines 323-361):
the child may still be running when the stop timeout expires (it is then
killed and NO_ERROR recorded), it may exit with a code within the deadline,
or the wait may observe a Terminated status or a poll error (the catch-all
arm of the source, which leaves the recorded exit code unchanged). -/
inductive GracefulResult
  | timedOut
  | exitedInTime (code : Int)
  | goneOther
deriving DecidableEq, Repr

/-- One observation of the inner once-per-second loop (service.rs lines
294-405): either a stop/shutdown signal arrives (or the control channel is
disconnected), or the receive times out and the child is polled, which can
itself fail. -/
inductive InnerEvent
  | stopSignal (g : GracefulResult)
  | tick (st : ProcessStatus)
  | tickErr
deriving DecidableEq, Repr

/-- Result of one spawn attempt (service.rs lines 232-242). -/
inductive SpawnOutcome
  | ok
  | fail (rawOsError : Option Nat)
deriving DecidableEq, Repr

/-- External observations driving one iteration of the outer loop: whether a
stop signal is pending while the host sleeps out a restart delay, how the
spawn attempt goes, and the inner-loop observations for the spawned child. -/
structure IterationScript where
  stopDuringDelay : Bool := false
  spawn : SpawnOutcome := SpawnOutcome.ok
  events : List InnerEvent := []
deriving DecidableEq, Repr

/-- Policy fields of CommonOpts that the supervise loop reads.  The
restart_delay field backs the --restart-delay option used at service.rs line
414; its declaration is in repository code missing from the sources under
src/, so it is modelled from the spec: an optional non-negative delay in
milliseconds applied before relaunch. -/
structure RunOpts where
  pass : Option (List Int) := none
  restart : Bool := false
  no_restart : Bool := false
  restart_if : List Int := []
  restart_if_not : List Int := []
  restart_delay : Option Nat := none
deriving DecidableEq, Repr

/-- Service states reported through set_service_status by run_service. -/
inductive SvcState
  | startPending
  | running
  | stopPending
  | stopped
deriving DecidableEq, Repr

/-- One set_service_status call: the state and the exit code it carries. -/
structure Report where
  state : SvcState
  exitCode : ServiceExitCode
deriving DecidableEq, Repr

/-- How one pass of the inner loop ends. -/
inductive InnerOutcome
  | ranOut
  | brokeInner (ec : ServiceExitCode)
  | brokeOuter (ec : ServiceExitCode) (stopPendingReported : Bool)
deriving DecidableEq, Repr

/-- Embedding of the inner once-per-second loop of run_service (service.rs
lines 294-405).  A stop signal reports StopPending, runs the graceful-stop
deadline wait and breaks the outer loop; a tick polls the child: a running
child continues, an exited child records the mapped exit code and consults
should_restart_exited_command, a terminated child records
ERROR_PROCESS_ABORTED and consults should_restart_terminated_command, and a
poll error records ERROR_PROCESS_ABORTED and breaks the inner loop. -/
def runInner (opts : RunOpts) (ec : ServiceExitCode) : List InnerEvent → InnerOutcome
  | [] => InnerOutcome.ranOut
  | e :: rest =>
    match e with
    | InnerEvent.stopSignal g =>
      let ec' := match g with
        | GracefulResult.timedOut => ServiceExitCode.noError
        | GracefulResult.exitedInTime c => mapExitCode (effectivePass opts.pass) c
        | GracefulResult.goneOther => ec
      InnerOutcome.brokeOuter ec' true
    | InnerEvent.tick ProcessStatus.running => runInner opts ec rest
    | InnerEvent.tick (ProcessStatus.exited c) =>
      let ec' := mapExitCode (effectivePass opts.pass) c
      if should_restart_exited_command c opts.restart opts.no_restart
          opts.restart_if opts.restart_if_not
      then InnerOutcome.brokeInner ec'
      else InnerOutcome.brokeOuter ec' false
    | InnerEvent.tick ProcessStatus.terminated =>
      let ec' := ServiceExitCode.win32 ERROR_PROCESS_ABORTED
      if should_restart_terminated_command opts.restart opts.no_restart
      then InnerOutcome.brokeInner ec'
      else InnerOutcome.brokeOuter ec' false
    | InnerEvent.tickErr =>
      InnerOutcome.brokeInner (ServiceExitCode.win32 ERROR_PROCESS_ABORTED)

/-- Embedding of the outer supervise loop of run_service (service.rs lines
163-418).  Returns the reports emitted inside the loop, the number of
successful spawns, the recorded service exit code, and whether the loop was
exited (false when the observation script ends with the loop still going).
A pending restart delay is checked for a stop signal before anything is
spawned (lines 164-171); a failed spawn records a Win32 exit code and breaks
(lines 232-242); after an inner break the restart delay is armed again
(lines 414-417). -/
def runOuter (opts : RunOpts) (ec : ServiceExitCode) (pending : Bool) :
    List IterationScript → List Report × Nat × ServiceExitCode × Bool
  | [] => ([], 0, ec, false)
  | it :: rest =>
    if pending && it.stopDuringDelay then ([], 0, ec, true)
    else
      match it.spawn with
      | SpawnOutcome.fail raw =>
        ([], 0,
          (match raw with
           | some w => ServiceExitCode.win32 w
           | none => ServiceExitCode.win32 ERROR_PROCESS_ABORTED), true)
      | SpawnOutcome.ok =>
        match runInner opts ec it.events with
        | InnerOutcome.ranOut => ([], 1, ec, false)
        | InnerOutcome.brokeInner ec' =>
          let r := runOuter opts ec' opts.restart_delay.isSome rest
          (r.1, r.2.1 + 1, r.2.2.1, r.2.2.2)
        | InnerOutcome.brokeOuter ec' sp =>
          ((if sp then [Report.mk SvcState.stopPending ServiceExitCode.noError] else []),
            1, ec', true)

/-- Observable outcome of one service-host run. -/
structure LoopResult where
  reports : List Report
  spawns : Nat
  exitCode : ServiceExitCode
  completed : Bool
deriving DecidableEq, Repr

/-- Embedding of run_service around the supervise loop: the Running report
before the loop (service.rs lines 122-130), the loop itself, and the final
Stopped report carrying the recorded exit code (lines 421-429) once the loop
has been exited. -/
def runService (opts : RunOpts) (script : List IterationScript) : LoopResult :=
  let r := runOuter opts ServiceExitCode.noError false script
  { reports := Report.mk SvcState.running ServiceExitCode.noError ::
      r.1 ++ (if r.2.2.2 then [Report.mk SvcState.stopped r.2.2.1] else [])
    spawns := r.2.1
    exitCode := r.2.2.1
    completed := r.2.2.2 }

/-- Acceptor for what may follow a Running report: at most one StopPending,
then at most one Stopped, then nothing. -/
def statusTail : List SvcState → Bool
  | [] => true
  | [SvcState.stopped] => true
  | [SvcState.stopPending] => true
  | [SvcState.stopPending, SvcState.stopped] => true
  | _ => false

/-- Acceptor for the status-monotonicity language of the spec: prefixes of
StartPending* Running StopPending? Stopped. -/
def statusPattern : List SvcState → Bool
  | [] => true
  | SvcState.startPending :: rest => statusPattern rest
  | SvcState.running :: rest => statusTail rest
  | _ => false

/-- Helper: the loop body emits either no report or exactly one StopPending
report. -/
theorem runOuter_reports (opts : RunOpts) (ec : ServiceExitCode) (pending : Bool)
    (script : List IterationScript) :
    (runOuter opts ec pending script).1 = [] ∨
      (runOuter opts ec pending script).1 =
        [Report.mk SvcState.stopPending ServiceExitCode.noError] := by
  induction script generalizing ec pending with
  | nil => exact Or.inl rfl
  | cons it rest ih =>
    unfold runOuter
    by_cases hstop : (pending && it.stopDuringDelay) = true
    · rw [if_pos hstop]
      exact Or.inl rfl
    · rw [if_neg hstop]
      cases it.spawn with
      | fail raw => exact Or.inl rfl
      | ok =>
        cases runInner opts ec it.events with
        | ranOut => exact Or.inl rfl
        | brokeInner ec' => exact ih ec' opts.restart_delay.isSome
        | brokeOuter ec' sp =>
          cases sp
          · exact Or.inl rfl
          · exact Or.inr rfl

/-- C8: over any run of the service host, the sequence of states passed to
set_service_status is accepted by the pattern StartPending* Running
StopPending? Stopped (as a prefix): Running comes first and at most once,
StopPending at most once after it, Stopped at most once at the end, and no
reported state ever moves backward in that order. -/
theorem status_monotonicity (opts : RunOpts) (script : List IterationScript) :
    statusPattern ((runService opts script).reports.map Report.state) = true := by
  unfold runService
  rcases runOuter_reports opts ServiceExitCode.noError false script with h | h <;>
    cases hc : (runOuter opts ServiceExitCode.noError false script).2.2.2 <;>
    simp [statusPattern, statusTail, h, hc]

/-- Counterexample for C7: a child exits with code 5 (recorded as
ServiceSpecific 5, restart due), and the stop arrives while the host sleeps
out the restart delay; the host spawns nothing further and exits the loop,
but the Stopped report carries ServiceSpecific 5, not NoError. -/
theorem stop_during_delay_counterexample :
    (runService { restart_delay := some 1 }
        [{ events := [InnerEvent.tick (ProcessStatus.exited 5)] },
         { stopDuringDelay := true }]).spawns = 1 ∧
      (runService { restart_delay := some 1 }
        [{ events := [InnerEvent.tick (ProcessStatus.exited 5)] },
         { stopDuringDelay := true }]).completed = true ∧
      (runService { restart_delay := some 1 }
        [{ events := [InnerEvent.tick (ProcessStatus.exited 5)] },
         { stopDuringDelay := true }]).reports =
        [Report.mk SvcState.running ServiceExitCode.noError,
         Report.mk SvcState.stopped (ServiceExitCode.serviceSpecific 5)] ∧
      (runService { restart_delay := some 1 }
        [{ events := [InnerEvent.tick (ProcessStatus.exited 5)] },
         { stopDuringDelay := true }]).exitCode ≠ ServiceExitCode.noError := by
  refine ⟨?_, ?_, ?_, ?_⟩ <;> decide

/-- C7 as amended: if a stop/shutdown event (or channel disconnection) is
received while the host sleeps out a pending restart delay, the host spawns
no further child and exits the supervise loop, and the final Stopped report
carries the service exit code already recorded from the previous child
outcome — which is NoError only when that outcome left it so. -/
theorem stop_during_delay_keeps_recorded_code (opts : RunOpts) (ec : ServiceExitCode)
    (it : IterationScript) (rest : List IterationScript)
    (h : it.stopDuringDelay = true) :
    runOuter opts ec true (it :: rest) = ([], 0, ec, true) := by
  unfold runOuter
  rw [h]
  rfl

/-- Witness for C7 (amended) at a concrete input. -/
theorem stop_during_delay_keeps_recorded_code_witness :
    runOuter { restart_delay := some 1 } (ServiceExitCode.serviceSpecific 5) true
        [{ stopDuringDelay := true }] =
      ([], 0, ServiceExitCode.serviceSpecific 5, true) :=
  stop_during_delay_keeps_recorded_code { restart_delay := some 1 }
    (ServiceExitCode.serviceSpecific 5) { stopDuringDelay := true } [] rfl

/-! ## Decimal numerals (modelled from the Rust standard library, which
control.rs uses through to_string and clap value parsing) -/

/-- Digit character for a value below ten. -/
def digitChar (d : Nat) : Char :=
  match d with
  | 0 => '0' | 1 => '1' | 2 => '2' | 3 => '3' | 4 => '4'
  | 5 => '5' | 6 => '6' | 7 => '7' | 8 => '8' | _ => '9'

/-- Modelled from the spec: decimal rendering of a natural number, as the Rust
standard library to_string does for the --stop-timeout, --pass, --restart-if
and --restart-if-not values in control.rs. -/
def natDigits (n : Nat) : Str :=
  if n < 10 then [digitChar n]
  else natDigits (n / 10) ++ [digitChar (n % 10)]
decreasing_by simp_wf; omega

/-- Rendering of an unsigned integer option value. -/
def nat_to_str (n : Nat) : Str := natDigits n

/-- Modelled from the spec: decimal rendering of a signed 32-bit exit code, as
the Rust standard library to_string does in control.rs. -/
def int_to_str (n : Int) : Str :=
  if n < 0 then '-' :: natDigits (-n).toNat else natDigits n.toNat

/-- Digit value of a character; none for a non-digit. -/
def digitVal (c : Char) : Option Nat :=
  if c = '0' then some 0 else if c = '1' then some 1 else if c = '2' then some 2
  else if c = '3' then some 3 else if c = '4' then some 4 else if c = '5' then some 5
  else if c = '6' then some 6 else if c = '7' then some 7 else if c = '8' then some 8
  else if c = '9' then some 9 else none

/-- Accumulator pass of decimal parsing. -/
def parseNatGo : Str → Nat → Option Nat
  | [], acc => some acc
  | c :: s, acc =>
    match digitVal c with
    | some d => parseNatGo s (acc * 10 + d)
    | none => none

/-- Modelled from the spec: parsing of an unsigned decimal numeral, as the
Rust standard library FromStr used by clap does. -/
def parseNat (s : Str) : Option Nat := if s = [] then none else parseNatGo s 0

/-- Modelled from the spec: parsing of a signed decimal numeral, as the Rust
standard library FromStr for i32 used by clap does. -/
def parseInt : Str → Option Int
  | [] => none
  | c :: rest =>
    if c = '-' then (parseNat rest).map (fun n => -(n : Int))
    else (parseNat (c :: rest)).map (fun n => (n : Int))

/-- Helper: digit characters parse back to their value. -/
theorem digitVal_digitChar (d : Nat) (h : d < 10) : digitVal (digitChar d) = some d := by
  interval_cases d <;> rfl

/-- Helper: a rendered numeral is never empty. -/
theorem natDigits_ne_nil (n : Nat) : natDigits n ≠ [] := by
  rw [natDigits]
  split <;> simp

/-- Helper: every character of a rendered numeral is a digit. -/
theorem natDigits_chars (n : Nat) : ∀ c ∈ natDigits n, (digitVal c).isSome := by
  induction n using Nat.strong_induction_on with
  | _ n ih =>
    rw [natDigits]
    split
    case isTrue h =>
      intro c hc
      simp at hc
      subst hc
      rw [digitVal_digitChar n h]
      rfl
    case isFalse h =>
      intro c hc
      rcases List.mem_append.mp hc with hc | hc
      · exact ih (n / 10) (by omega) c hc
      · simp at hc
        subst hc
        rw [digitVal_digitChar (n % 10) (by omega)]
        rfl

/-- Helper: the accumulator pass distributes over concatenation. -/
theorem parseNatGo_append (a b : Str) (acc : Nat) :
    parseNatGo (a ++ b) acc =
      match parseNatGo a acc with
      | some acc2 => parseNatGo b acc2
      | none => none := by
  induction a generalizing acc with
  | nil => rfl
  | cons c s ih =>
    cases hd : digitVal c <;> simp [parseNatGo, hd, ih]

/-- Helper: parsing a rendered numeral with an accumulator. -/
theorem parseNatGo_natDigits (n : Nat) : ∀ acc,
    parseNatGo (natDigits n) acc = some (acc * 10 ^ (natDigits n).length + n) := by
  induction n using Nat.strong_induction_on with
  | _ n ih =>
    intro acc
    rw [natDigits]
    split
    case isTrue h =>
      simp [parseNatGo, digitVal_digitChar n h]
    case isFalse h =>
      rw [parseNatGo_append]
      rw [ih (n / 10) (by omega)]
      simp only [parseNatGo, digitVal_digitChar (n % 10) (by omega)]
      simp only [List.length_append, List.length_cons, List.length_nil, Option.some.injEq]
      rw [pow_succ]
      ring_nf
      omega

/-- Helper: decimal round trip for natural numbers. -/
theorem parseNat_natDigits (n : Nat) : parseNat (natDigits n) = some n := by
  unfold parseNat
  rw [if_neg (natDigits_ne_nil n), parseNatGo_natDigits]
  simp

/-- Helper: decimal round trip for signed integers. -/
theorem parseInt_int_to_str (n : Int) : parseInt (int_to_str n) = some n := by
  unfold int_to_str
  split
  case isTrue h =>
    simp [parseInt, parseNat_natDigits]
    omega
  case isFalse h =>
    cases hd : natDigits n.toNat with
    | nil => exact absurd hd (natDigits_ne_nil _)
    | cons c cs =>
      have hc : (digitVal c).isSome := natDigits_chars _ c (hd ▸ List.mem_cons_self c cs)
      have hcne : c ≠ '-' := by
        intro e
        subst e
        simp [digitVal] at hc
      simp only [parseInt]
      rw [if_neg hcne, ← hd, parseNat_natDigits]
      simp
      omega

/-! ## Separator splitting (modelled from the Rust standard library str::split
and str::splitn used by clap delimiters and parse_env_var) -/

/-- Modelled from the spec: splitting at every occurrence of a separator, as
the clap value delimiter does for comma-separated code lists. -/
def splitChar (sep : Char) : Str → List Str
  | [] => [[]]
  | c :: rest =>
    match splitChar sep rest with
    | [] => [[c]]
    | h :: t => if c = sep then [] :: h :: t else (c :: h) :: t

/-- Modelled from the spec: splitting at the first occurrence of a separator
only, as splitn(2, sep) does in parse_env_var (cli.rs lines 141-149). -/
def splitFirst (sep : Char) : Str → Option (Str × Str)
  | [] => none
  | c :: rest =>
    if c = sep then some ([], rest)
    else (splitFirst sep rest).map (fun p => (c :: p.1, p.2))

/-- Embedding of parse_env_var from cli.rs lines 141-149: split a KEY=value
specification at the first equals sign; error when none exists. -/
def parse_env_var (value : Str) : Option (Str × Str) := splitFirst '=' value

/-- Helper: splitChar never returns an empty list of pieces. -/
theorem splitChar_ne_nil (sep : Char) (s : Str) : splitChar sep s ≠ [] := by
  cases s with
  | nil => simp [splitChar]
  | cons c rest =>
    unfold splitChar
    cases splitChar sep rest with
    | nil => simp
    | cons h t =>
      by_cases hc : c = sep <;> simp [hc]

/-- Helper: a piece without the separator is returned whole. -/
theorem splitChar_no_sep (sep : Char) (x : Str) (h : sep ∉ x) :
    splitChar sep x = [x] := by
  induction x with
  | nil => rfl
  | cons c rest ih =>
    have hc : c ≠ sep := fun e => h (e ▸ List.mem_cons_self c rest)
    have hr : sep ∉ rest := fun e => h (List.mem_cons_of_mem c e)
    unfold splitChar
    rw [ih hr]
    simp [hc]

/-- Helper: splitting a clean piece followed by a separator peels it off. -/
theorem splitChar_piece (sep : Char) (x z : Str) (h : sep ∉ x) :
    splitChar sep (x ++ sep :: z) = x :: splitChar sep z := by
  induction x with
  | nil =>
    simp only [List.nil_append, splitChar]
    cases hz : splitChar sep z with
    | nil => exact absurd hz (splitChar_ne_nil sep z)
    | cons h0 t0 => simp
  | cons c rest ih =>
    have hc : c ≠ sep := fun e => h (e ▸ List.mem_cons_self c rest)
    have hr : sep ∉ rest := fun e => h (List.mem_cons_of_mem c e)
    simp only [List.cons_append, splitChar, List.append_eq]
    rw [ih hr]
    simp [hc]

/-- Helper: join-then-split round trip for separator-free pieces. -/
theorem splitChar_joinWith (sep : Char) (parts : List Str) (hne : parts ≠ [])
    (h : ∀ p ∈ parts, sep ∉ p) :
    splitChar sep (joinWith sep parts) = parts := by
  induction parts with
  | nil => exact absurd rfl hne
  | cons x rest ih =>
    cases rest with
    | nil =>
      exact splitChar_no_sep sep x (h x (List.mem_cons_self x []))
    | cons y t =>
      have hx : sep ∉ x := h x (List.mem_cons_self x (y :: t))
      have hrest : ∀ p ∈ y :: t, sep ∉ p := fun p hp => h p (List.mem_cons_of_mem x hp)
      show splitChar sep (x ++ sep :: joinWith sep (y :: t)) = x :: y :: t
      rw [splitChar_piece sep x _ hx, ih (List.cons_ne_nil y t) hrest]

/-- Helper: parse_env_var inverts the KEY=value rendering of control.rs when
the key itself has no equals sign. -/
theorem parse_env_var_roundtrip (k v : Str) (h : '=' ∉ k) :
    parse_env_var (k ++ '=' :: v) = some (k, v) := by
  unfold parse_env_var
  induction k with
  | nil => simp [splitFirst]
  | cons c rest ih =>
    have hc : c ≠ '=' := fun e => h (e ▸ List.mem_cons_self c rest)
    have hr : '=' ∉ rest := fun e => h (List.mem_cons_of_mem c e)
    simp only [List.cons_append]
    unfold splitFirst
    rw [ih hr]
    simp [hc]

/-- Helper: every character of a joined list comes from a piece or is the
separator. -/
theorem mem_joinWith (sep : Char) (parts : List Str) (c : Char)
    (h : c ∈ joinWith sep parts) : c = sep ∨ ∃ p ∈ parts, c ∈ p := by
  induction parts with
  | nil => cases h
  | cons x rest ih =>
    cases rest with
    | nil =>
      exact Or.inr ⟨x, List.mem_cons_self x [], h⟩
    | cons y t =>
      rw [show joinWith sep (x :: y :: t) = x ++ sep :: joinWith sep (y :: t) from rfl] at h
      rcases List.mem_append.mp h with h | h
      · exact Or.inr ⟨x, List.mem_cons_self x (y :: t), h⟩
      · rcases List.mem_cons.mp h with h | h
        · exact Or.inl h
        · rcases ih h with h | ⟨p, hp, hcp⟩
          · exact Or.inl h
          · exact Or.inr ⟨p, List.mem_cons_of_mem x hp, hcp⟩

/-- Helper: a non-empty join of non-empty pieces is non-empty. -/
theorem joinWith_ne_nil (sep : Char) (parts : List Str) (hne : parts ≠ [])
    (h : ∀ p ∈ parts, p ≠ []) : joinWith sep parts ≠ [] := by
  cases parts with
  | nil => exact absurd rfl hne
  | cons x rest =>
    cases rest with
    | nil => exact h x (List.mem_cons_self x [])
    | cons y t =>
      show x ++ sep :: joinWith sep (y :: t) ≠ []
      simp

/-! ## Command-line splitting of the registered binPath (modelled from the
spec: Windows splits the binPath on spaces, with double quotes protecting
embedded spaces, before clap sees the run arguments) -/

/-- Scanner for one token: consumes characters until an unquoted space (which
is dropped) or the end; double quotes are dropped and toggle the in-quotes
flag.  Returns the token and the remaining input. -/
def takeToken : Str → Bool → Str × Str
  | [], _ => ([], [])
  | c :: rest, q =>
    if q = false ∧ c = ' ' then ([], rest)
    else if c = '"' then takeToken rest (!q)
    else ((takeToken rest q).1.cons c, (takeToken rest q).2)

/-- Helper: the remainder of a token scan is no longer than the input. -/
theorem takeToken_snd_le (s : Str) (q : Bool) :
    (takeToken s q).2.length ≤ s.length := by
  induction s generalizing q with
  | nil => simp [takeToken]
  | cons c rest ih =>
    unfold takeToken
    by_cases h1 : q = false ∧ c = ' '
    · rw [if_pos h1]
      simp
    · rw [if_neg h1]
      by_cases h2 : c = '"'
      · rw [if_pos h2]
        exact le_trans (ih (!q)) (by simp)
      · rw [if_neg h2]
        exact le_trans (ih q) (by simp)

/-- Helper: a token scan on a non-empty input strictly shrinks it. -/
theorem takeToken_snd_lt (s : Str) (q : Bool) (h : s ≠ []) :
    (takeToken s q).2.length < s.length := by
  cases s with
  | nil => exact absurd rfl h
  | cons c rest =>
    unfold takeToken
    by_cases h1 : q = false ∧ c = ' '
    · rw [if_pos h1]
      simp
    · rw [if_neg h1]
      by_cases h2 : c = '"'
      · rw [if_pos h2]
        exact lt_of_le_of_lt (takeToken_snd_le rest (!q)) (by simp)
      · rw [if_neg h2]
        simpa using lt_of_le_of_lt (takeToken_snd_le rest q) (Nat.lt_succ_self _)

/-- Modelled from the spec: splitting of the binPath command line into
arguments; unquoted runs of spaces separate tokens and produce no empty
tokens. -/
def splitArgs (s : Str) : List Str :=
  match s with
  | [] => []
  | c :: rest =>
    if c = ' ' then splitArgs rest
    else (takeToken (c :: rest) false).1 :: splitArgs (takeToken (c :: rest) false).2
termination_by s.length
decreasing_by
  · simp
  · exact takeToken_snd_lt (c :: rest) false (List.cons_ne_nil c rest)

/-- Helper: a token scan passes over characters that are neither spaces nor
quotes. -/
theorem takeToken_clean (t s : Str) (h : ∀ c ∈ t, c ≠ ' ' ∧ c ≠ '"') :
    takeToken (t ++ s) false = (t ++ (takeToken s false).1, (takeToken s false).2) := by
  induction t with
  | nil => rfl
  | cons c rest ih =>
    have hc := h c (List.mem_cons_self c rest)
    have hr : ∀ x ∈ rest, x ≠ ' ' ∧ x ≠ '"' := fun x hx => h x (List.mem_cons_of_mem c hx)
    simp only [List.cons_append, takeToken, List.append_eq]
    rw [if_neg (by simp [hc.1]), if_neg hc.2, ih hr]

/-- Helper: a token scan in quoted mode passes over anything but a quote. -/
theorem takeToken_quoted (t s : Str) (h : ∀ c ∈ t, c ≠ '"') :
    takeToken (t ++ s) true = (t ++ (takeToken s true).1, (takeToken s true).2) := by
  induction t with
  | nil => rfl
  | cons c rest ih =>
    have hc := h c (List.mem_cons_self c rest)
    have hr : ∀ x ∈ rest, x ≠ '"' := fun x hx => h x (List.mem_cons_of_mem c hx)
    simp only [List.cons_append, takeToken, List.append_eq]
    rw [if_neg (by simp), if_neg hc, ih hr]

/-- Helper: splitArgs on the empty input. -/
theorem splitArgs_nil : splitArgs [] = [] := by
  rw [splitArgs]

/-- Helper: splitArgs skips a leading space. -/
theorem splitArgs_space (rest : Str) : splitArgs (' ' :: rest) = splitArgs rest := by
  rw [splitArgs]
  simp

/-- Helper: splitArgs on a non-space head scans one token. -/
theorem splitArgs_cons (c : Char) (rest : Str) (h : c ≠ ' ') :
    splitArgs (c :: rest) =
      (takeToken (c :: rest) false).1 :: splitArgs (takeToken (c :: rest) false).2 := by
  rw [splitArgs]
  simp [h]

/-- Helper: splitting a quoted token followed by a space peels off the
unquoted token. -/
theorem splitArgs_quote_cons (t z : Str) (hne : t ≠ []) (hq : '"' ∉ t) :
    splitArgs (quote t ++ ' ' :: z) = t :: splitArgs z := by
  by_cases hs : t.contains ' ' = true
  · have hquote : quote t = '"' :: t ++ ['"'] := by
      unfold quote
      rw [if_pos hs]
    rw [hquote]
    have hlist : ('"' :: t ++ ['"']) ++ ' ' :: z = '"' :: (t ++ '"' :: ' ' :: z) := by
      simp
    rw [hlist, splitArgs_cons '"' _ (by decide)]
    have htk : takeToken ('"' :: (t ++ '"' :: ' ' :: z)) false = (t, z) := by
      show takeToken (t ++ '"' :: ' ' :: z) true = (t, z)
      rw [takeToken_quoted t _ (fun c hc => fun e => hq (e ▸ hc))]
      show (t ++ (takeToken (' ' :: z) false).1, (takeToken (' ' :: z) false).2) = (t, z)
      rw [show takeToken (' ' :: z) false = ([], z) from rfl]
      simp
    rw [htk]
  · have hnospace : ' ' ∉ t := by
      intro hmem
      exact hs (List.elem_iff.mpr hmem)
    have hquote : quote t = t := by
      unfold quote
      rw [if_neg hs]
    rw [hquote]
    cases t with
    | nil => exact absurd rfl hne
    | cons c t2 =>
      have hc : c ≠ ' ' := fun e => hnospace (e ▸ List.mem_cons_self c t2)
      have hclean : ∀ x ∈ c :: t2, x ≠ ' ' ∧ x ≠ '"' :=
        fun x hx => ⟨fun e => hnospace (e ▸ hx), fun e => hq (e ▸ hx)⟩
      rw [List.cons_append, splitArgs_cons c _ hc, ← List.cons_append]
      rw [takeToken_clean (c :: t2) (' ' :: z) hclean]
      rw [show takeToken (' ' :: z) false = ([], z) from rfl]
      simp

/-- Helper: splitting a single quoted token recovers it. -/
theorem splitArgs_quote_one (t : Str) (hne : t ≠ []) (hq : '"' ∉ t) :
    splitArgs (quote t) = [t] := by
  by_cases hs : t.contains ' ' = true
  · have hquote : quote t = '"' :: t ++ ['"'] := by
      unfold quote
      rw [if_pos hs]
    rw [hquote]
    rw [show '"' :: t ++ ['"'] = '"' :: (t ++ ['"']) from by simp]
    rw [splitArgs_cons '"' _ (by decide)]
    have htk : takeToken ('"' :: (t ++ ['"'])) false = (t, []) := by
      show takeToken (t ++ ['"']) true = (t, [])
      rw [takeToken_quoted t _ (fun c hc => fun e => hq (e ▸ hc))]
      show (t ++ (takeToken ['"'] true).1, (takeToken ['"'] true).2) = (t, [])
      rw [show takeToken ['"'] true = ([], []) from rfl]
      simp
    rw [htk, splitArgs_nil]
  · have hnospace : ' ' ∉ t := by
      intro hmem
      exact hs (List.elem_iff.mpr hmem)
    have hquote : quote t = t := by
      unfold quote
      rw [if_neg hs]
    rw [hquote]
    cases t with
    | nil => exact absurd rfl hne
    | cons c t2 =>
      have hc : c ≠ ' ' := fun e => hnospace (e ▸ List.mem_cons_self c t2)
      have hclean : ∀ x ∈ c :: t2, x ≠ ' ' ∧ x ≠ '"' :=
        fun x hx => ⟨fun e => hnospace (e ▸ hx), fun e => hq (e ▸ hx)⟩
      rw [splitArgs_cons c _ hc]
      have htk : takeToken (c :: t2) false = (c :: t2, []) := by
        have h0 := takeToken_clean (c :: t2) [] hclean
        simpa [takeToken] using h0
      rw [htk, splitArgs_nil]

/-- Helper: the command line joined from quoted tokens splits back into the
raw tokens, provided each raw token is non-empty and free of double quotes. -/
theorem splitArgs_joinWith_quote (toks : List Str)
    (h : ∀ t ∈ toks, t ≠ [] ∧ '"' ∉ t) :
    splitArgs (joinWith ' ' (toks.map quote)) = toks := by
  induction toks with
  | nil => exact splitArgs_nil
  | cons x rest ih =>
    cases rest with
    | nil =>
      have hx := h x (List.mem_cons_self x [])
      exact splitArgs_quote_one x hx.1 hx.2
    | cons y t =>
      have hx := h x (List.mem_cons_self x (y :: t))
      have hrest : ∀ u ∈ y :: t, u ≠ [] ∧ '"' ∉ u :=
        fun u hu => h u (List.mem_cons_of_mem x hu)
      show splitArgs (quote x ++ ' ' :: joinWith ' ' ((y :: t).map quote)) = x :: y :: t
      rw [splitArgs_quote_cons x _ hx.1 hx.2, ih hrest]

/-! ## CLI data model (cli.rs lines 40-331) -/

/-- Embedding of the Priority enum from cli.rs lines 40-94. -/
inductive Priority
  | realtime
  | high
  | aboveNormal
  | normal
  | belowNormal
  | idle
deriving DecidableEq, Repr

/-- Embedding of Priority::to_cli from cli.rs lines 56-66. -/
def Priority.to_cli : Priority → Str
  | Priority.realtime => str "realtime"
  | Priority.high => str "high"
  | Priority.aboveNormal => str "above-normal"
  | Priority.normal => str "normal"
  | Priority.belowNormal => str "below-normal"
  | Priority.idle => str "idle"

/-- Embedding of FromStr for Priority from cli.rs lines 80-94. -/
def Priority.from_str (s : Str) : Option Priority :=
  if s = str "realtime" then some Priority.realtime
  else if s = str "high" then some Priority.high
  else if s = str "above-normal" then some Priority.aboveNormal
  else if s = str "normal" then some Priority.normal
  else if s = str "below-normal" then some Priority.belowNormal
  else if s = str "idle" then some Priority.idle
  else none

/-- Embedding of the LogRotation enum from cli.rs lines 96-139. -/
inductive LogRotation
  | bytes (n : Nat)
  | daily
  | hourly
deriving DecidableEq, Repr

/-- Embedding of FromStr for LogRotation from cli.rs lines 113-133: the words
daily and hourly, or a byte count after the bytes= marker. -/
def LogRotation.from_str (s : Str) : Option LogRotation :=
  if s = str "daily" then some LogRotation.daily
  else if s = str "hourly" then some LogRotation.hourly
  else if s.take 6 = str "bytes=" then (parseNat (s.drop 6)).map LogRotation.bytes
  else none

/-- Embedding of the CommonOpts structure from cli.rs lines 161-281, the
options shared by the add and run subcommands. -/
structure CommonOpts where
  pass : Option (List Int) := none
  restart : Bool := false
  no_restart : Bool := false
  restart_if : List Int := []
  restart_if_not : List Int := []
  stop_timeout : Option Nat := none
  no_log : Bool := false
  no_log_cmd : Bool := false
  log_dir : Option Str := none
  log_as : Option Str := none
  log_cmd_as : Option Str := none
  log_rotate : Option LogRotation := none
  log_retain : Option Nat := none
  pass_start_args : Bool := false
  env : List (Str × Str) := []
  path : List Str := []
  path_prepend : List Str := []
  priority : Option Priority := none
  command : List Str := []
deriving DecidableEq, Repr

/-- Result of parsing the run subcommand (cli.rs lines 303-315): the service
name (defaulting to Shawl), the optional cwd and the common options. -/
structure RunParse where
  name : Str := str "Shawl"
  cwd : Option Str := none
  common : CommonOpts := {}
deriving DecidableEq, Repr

/-! ## The argument list constructed by add (control.rs lines 54-133) -/

/-- Segment of construct_shawl_run_args for --stop-timeout (control.rs lines
56-59). -/
def argStopTimeout (o : Option Nat) : List Str :=
  match o with
  | some st => [str "--stop-timeout", nat_to_str st]
  | none => []

/-- Segment of construct_shawl_run_args for --restart (control.rs lines 60-62). -/
def argRestart (b : Bool) : List Str :=
  if b then [str "--restart"] else []

/-- Segment of construct_shawl_run_args for --no-restart (control.rs lines
63-65). -/
def argNoRestart (b : Bool) : List Str :=
  if b then [str "--no-restart"] else []

/-- Segment of construct_shawl_run_args for --restart-if (control.rs lines
66-75). -/
def argRestartIf (codes : List Int) : List Str :=
  if !codes.isEmpty then
    [str "--restart-if", joinWith ',' (codes.map int_to_str)]
  else []

/-- Segment of construct_shawl_run_args for --restart-if-not (control.rs
lines 76-85). -/
def argRestartIfNot (codes : List Int) : List Str :=
  if !codes.isEmpty then
    [str "--restart-if-not", joinWith ',' (codes.map int_to_str)]
  else []

/-- Segment of construct_shawl_run_args for --pass (control.rs lines 86-94). -/
def argPass (o : Option (List Int)) : List Str :=
  match o with
  | some pass => [str "--pass", joinWith ',' (pass.map int_to_str)]
  | none => []

/-- Segment of construct_shawl_run_args for --cwd (control.rs lines 95-98). -/
def argCwd (o : Option Str) : List Str :=
  match o with
  | some c => [str "--cwd", quote c]
  | none => []

/-- Segment of construct_shawl_run_args for --no-log (control.rs lines
99-101). -/
def argNoLog (b : Bool) : List Str :=
  if b then [str "--no-log"] else []

/-- Segment of construct_shawl_run_args for --no-log-cmd (control.rs lines
102-104). -/
def argNoLogCmd (b : Bool) : List Str :=
  if b then [str "--no-log-cmd"] else []

/-- Segment of construct_shawl_run_args for --log-dir (control.rs lines
105-108). -/
def argLogDir (o : Option Str) : List Str :=
  match o with
  | some d => [str "--log-dir", quote d]
  | none => []

/-- Segment of construct_shawl_run_args for --pass-start-args (control.rs
lines 109-111). -/
def argPassStartArgs (b : Bool) : List Str :=
  if b then [str "--pass-start-args"] else []

/-- Segment of construct_shawl_run_args for the repeated --env options
(control.rs lines 112-117). -/
def argEnv (env : List (Str × Str)) : List Str :=
  env.flatMap (fun kv => [str "--env", quote (kv.1 ++ '=' :: kv.2)])

/-- Segment of construct_shawl_run_args for the repeated --path options
(control.rs lines 118-123). -/
def argPath (path : List Str) : List Str :=
  path.flatMap (fun p => [str "--path", quote p])

/-- Segment of construct_shawl_run_args for --priority (control.rs lines
124-127). -/
def argPriority (o : Option Priority) : List Str :=
  match o with
  | some pr => [str "--priority", pr.to_cli]
  | none => []

/-- Embedding of construct_shawl_run_args from control.rs lines 54-129: the
run-argument list that add registers in the service binPath, assembled in
the source's push order. -/
def construct_shawl_run_args (name : Str) (cwd : Option Str) (opts : CommonOpts) : List Str :=
  [str "run", str "--name", quote name] ++
  argStopTimeout opts.stop_timeout ++
  argRestart opts.restart ++
  argNoRestart opts.no_restart ++
  argRestartIf opts.restart_if ++
  argRestartIfNot opts.restart_if_not ++
  argPass opts.pass ++
  argCwd cwd ++
  argNoLog opts.no_log ++
  argNoLogCmd opts.no_log_cmd ++
  argLogDir opts.log_dir ++
  argPassStartArgs opts.pass_start_args ++
  argEnv opts.env ++
  argPath opts.path ++
  argPriority opts.priority

/-- Embedding of the binPath tail registered by add_service (control.rs lines
27-34), after the wrapper executable path: the run arguments, the separator
and the quoted command, joined by spaces. -/
def binPathTail (name : Str) (cwd : Option Str) (opts : CommonOpts) : Str :=
  joinWith ' ' (construct_shawl_run_args name cwd opts) ++ str " -- " ++
    joinWith ' ' (prepare_command opts.command)

/-! ## The same argument list before quoting -/

/-- Unquoted form of the cwd segment. -/
def rawCwd (o : Option Str) : List Str :=
  match o with
  | some c => [str "--cwd", c]
  | none => []

/-- Unquoted form of the log-dir segment. -/
def rawLogDir (o : Option Str) : List Str :=
  match o with
  | some d => [str "--log-dir", d]
  | none => []

/-- Unquoted form of the env segment. -/
def rawEnv (env : List (Str × Str)) : List Str :=
  env.flatMap (fun kv => [str "--env", kv.1 ++ '=' :: kv.2])

/-- Unquoted form of the path segment. -/
def rawPath (path : List Str) : List Str :=
  path.flatMap (fun p => [str "--path", p])

/-- The run-argument list of construct_shawl_run_args with every token in its
unquoted form; quoting each token of this list yields the constructed list. -/
def rawRunArgs (name : Str) (cwd : Option Str) (opts : CommonOpts) : List Str :=
  [str "run", str "--name", name] ++
  argStopTimeout opts.stop_timeout ++
  argRestart opts.restart ++
  argNoRestart opts.no_restart ++
  argRestartIf opts.restart_if ++
  argRestartIfNot opts.restart_if_not ++
  argPass opts.pass ++
  rawCwd cwd ++
  argNoLog opts.no_log ++
  argNoLogCmd opts.no_log_cmd ++
  rawLogDir opts.log_dir ++
  argPassStartArgs opts.pass_start_args ++
  rawEnv opts.env ++
  rawPath opts.path ++
  argPriority opts.priority

/-! ## Character facts about rendered numerals -/

/-- Helper: a digit character is not a space, quote, comma or minus sign. -/
theorem digitVal_isSome_facts (c : Char) (h : (digitVal c).isSome) :
    c ≠ ' ' ∧ c ≠ '"' ∧ c ≠ ',' := by
  unfold digitVal at h
  split_ifs at h with h0 h1 h2 h3 h4 h5 h6 h7 h8 h9
  all_goals first
    | (subst_vars; exact ⟨by decide, by decide, by decide⟩)
    | exact absurd h (by decide)

/-- Helper: a rendered signed numeral consists of digits after an optional
leading minus sign. -/
theorem int_to_str_chars (n : Int) :
    ∀ c ∈ int_to_str n, c = '-' ∨ (digitVal c).isSome := by
  unfold int_to_str
  split
  · intro c hc
    rcases List.mem_cons.mp hc with hc | hc
    · exact Or.inl hc
    · exact Or.inr (natDigits_chars _ c hc)
  · intro c hc
    exact Or.inr (natDigits_chars _ c hc)

/-- Helper: a rendered signed numeral is never empty. -/
theorem int_to_str_ne_nil (n : Int) : int_to_str n ≠ [] := by
  unfold int_to_str
  split
  · simp
  · exact natDigits_ne_nil _

/-- Helper: a joined code list contains no space and no quote. -/
theorem intJoin_clean (codes : List Int) :
    ∀ c ∈ joinWith ',' (codes.map int_to_str), c ≠ ' ' ∧ c ≠ '"' := by
  intro c hc
  rcases mem_joinWith ',' _ c hc with h | ⟨p, hp, hcp⟩
  · subst h
    exact ⟨by decide, by decide⟩
  · rcases List.mem_map.mp hp with ⟨n, _, rfl⟩
    rcases int_to_str_chars n c hcp with h | h
    · subst h
      exact ⟨by decide, by decide⟩
    · exact ⟨(digitVal_isSome_facts c h).1, (digitVal_isSome_facts c h).2.1⟩

/-- Helper: the rendered pieces of a code list contain no comma. -/
theorem int_to_str_no_comma (n : Int) : ',' ∉ int_to_str n := by
  intro hmem
  rcases int_to_str_chars n ',' hmem with h | h
  · exact absurd h (by decide)
  · exact absurd (digitVal_isSome_facts ',' h).2.2 (by simp)

/-- Helper: a joined non-empty code list is a non-empty token. -/
theorem intJoin_ne_nil (codes : List Int) (h : codes ≠ []) :
    joinWith ',' (codes.map int_to_str) ≠ [] := by
  apply joinWith_ne_nil
  · simpa using h
  · intro p hp
    rcases List.mem_map.mp hp with ⟨n, _, rfl⟩
    exact int_to_str_ne_nil n

/-- Helper: quote leaves a space-free token unchanged. -/
theorem quote_eq_self (t : Str) (h : ' ' ∉ t) : quote t = t := by
  unfold quote
  rw [if_neg]
  intro hc
  exact h (List.elem_iff.mp hc)

/-- Helper: a rendered unsigned numeral contains no space. -/
theorem nat_to_str_no_space (n : Nat) : ' ' ∉ nat_to_str n := by
  intro hmem
  exact absurd (digitVal_isSome_facts ' ' (natDigits_chars n ' ' hmem)).1 (by simp)

/-- Helper: a rendered unsigned numeral contains no quote. -/
theorem nat_to_str_no_quote (n : Nat) : '"' ∉ nat_to_str n := by
  intro hmem
  exact absurd (digitVal_isSome_facts '"' (natDigits_chars n '"' hmem)).2.1 (by simp)

/-! ## Quoting the raw list yields the constructed list -/

/-- Helper: quoting the leading tokens. -/
theorem map_quote_head (name : Str) :
    ([str "run", str "--name", name]).map quote = [str "run", str "--name", quote name] := by
  simp [show quote (str "run") = str "run" from by decide,
        show quote (str "--name") = str "--name" from by decide]

/-- Helper: the stop-timeout segment is quote-invariant. -/
theorem map_quote_argStopTimeout (o : Option Nat) :
    (argStopTimeout o).map quote = argStopTimeout o := by
  cases o with
  | none => rfl
  | some st =>
    simp [argStopTimeout,
      show quote (str "--stop-timeout") = str "--stop-timeout" from by decide,
      quote_eq_self (nat_to_str st) (nat_to_str_no_space st)]

/-- Helper: the restart flag segment is quote-invariant. -/
theorem map_quote_argRestart (b : Bool) :
    (argRestart b).map quote = argRestart b := by
  cases b <;> simp [argRestart, show quote (str "--restart") = str "--restart" from by decide]

/-- Helper: the no-restart flag segment is quote-invariant. -/
theorem map_quote_argNoRestart (b : Bool) :
    (argNoRestart b).map quote = argNoRestart b := by
  cases b <;>
    simp [argNoRestart, show quote (str "--no-restart") = str "--no-restart" from by decide]

/-- Helper: the restart-if segment is quote-invariant. -/
theorem map_quote_argRestartIf (codes : List Int) :
    (argRestartIf codes).map quote = argRestartIf codes := by
  unfold argRestartIf
  split
  · simp [show quote (str "--restart-if") = str "--restart-if" from by decide,
      quote_eq_self _ (fun hmem => (intJoin_clean codes ' ' hmem).1 rfl)]
  · rfl

/-- Helper: the restart-if-not segment is quote-invariant. -/
theorem map_quote_argRestartIfNot (codes : List Int) :
    (argRestartIfNot codes).map quote = argRestartIfNot codes := by
  unfold argRestartIfNot
  split
  · simp [show quote (str "--restart-if-not") = str "--restart-if-not" from by decide,
      quote_eq_self _ (fun hmem => (intJoin_clean codes ' ' hmem).1 rfl)]
  · rfl

/-- Helper: the pass segment is quote-invariant. -/
theorem map_quote_argPass (o : Option (List Int)) :
    (argPass o).map quote = argPass o := by
  cases o with
  | none => rfl
  | some cs =>
    simp [argPass, show quote (str "--pass") = str "--pass" from by decide,
      quote_eq_self _ (fun hmem => (intJoin_clean cs ' ' hmem).1 rfl)]

/-- Helper: quoting the raw cwd segment gives the constructed one. -/
theorem map_quote_rawCwd (o : Option Str) :
    (rawCwd o).map quote = argCwd o := by
  cases o with
  | none => rfl
  | some c =>
    simp [rawCwd, argCwd, show quote (str "--cwd") = str "--cwd" from by decide]

/-- Helper: the no-log flag segment is quote-invariant. -/
theorem map_quote_argNoLog (b : Bool) :
    (argNoLog b).map quote = argNoLog b := by
  cases b <;> simp [argNoLog, show quote (str "--no-log") = str "--no-log" from by decide]

/-- Helper: the no-log-cmd flag segment is quote-invariant. -/
theorem map_quote_argNoLogCmd (b : Bool) :
    (argNoLogCmd b).map quote = argNoLogCmd b := by
  cases b <;>
    simp [argNoLogCmd, show quote (str "--no-log-cmd") = str "--no-log-cmd" from by decide]

/-- Helper: quoting the raw log-dir segment gives the constructed one. -/
theorem map_quote_rawLogDir (o : Option Str) :
    (rawLogDir o).map quote = argLogDir o := by
  cases o with
  | none => rfl
  | some d =>
    simp [rawLogDir, argLogDir, show quote (str "--log-dir") = str "--log-dir" from by decide]

/-- Helper: the pass-start-args flag segment is quote-invariant. -/
theorem map_quote_argPassStartArgs (b : Bool) :
    (argPassStartArgs b).map quote = argPassStartArgs b := by
  cases b <;>
    simp [argPassStartArgs,
      show quote (str "--pass-start-args") = str "--pass-start-args" from by decide]

/-- Helper: quoting the raw env segment gives the constructed one. -/
theorem map_quote_rawEnv (env : List (Str × Str)) :
    (rawEnv env).map quote = argEnv env := by
  induction env with
  | nil => rfl
  | cons kv rest ih =>
    simp only [rawEnv, argEnv, List.flatMap_cons, List.map_append] at ih ⊢
    rw [ih]
    simp [show quote (str "--env") = str "--env" from by decide]

/-- Helper: quoting the raw path segment gives the constructed one. -/
theorem map_quote_rawPath (path : List Str) :
    (rawPath path).map quote = argPath path := by
  induction path with
  | nil => rfl
  | cons p rest ih =>
    simp only [rawPath, argPath, List.flatMap_cons, List.map_append] at ih ⊢
    rw [ih]
    simp [show quote (str "--path") = str "--path" from by decide]

/-- Helper: the priority segment is quote-invariant. -/
theorem map_quote_argPriority (o : Option Priority) :
    (argPriority o).map quote = argPriority o := by
  cases o with
  | none => rfl
  | some pr =>
    cases pr <;>
      simp [argPriority, Priority.to_cli] <;> decide

/-- Helper: quoting every raw token yields exactly the constructed run
arguments of control.rs. -/
theorem construct_eq_map_quote (name : Str) (cwd : Option Str) (opts : CommonOpts) :
    construct_shawl_run_args name cwd opts = (rawRunArgs name cwd opts).map quote := by
  unfold construct_shawl_run_args rawRunArgs
  simp only [List.map_append, map_quote_head, map_quote_argStopTimeout, map_quote_argRestart,
    map_quote_argNoRestart, map_quote_argRestartIf, map_quote_argRestartIfNot,
    map_quote_argPass, map_quote_rawCwd, map_quote_argNoLog, map_quote_argNoLogCmd,
    map_quote_rawLogDir, map_quote_argPassStartArgs, map_quote_rawEnv, map_quote_rawPath,
    map_quote_argPriority]

/-! ## Parsing run arguments (modelled from the clap declarations in cli.rs
lines 161-331: each option of the run subcommand, its value parser, and the
trailing command after the double-dash separator) -/

/-- Modelled from the spec: parsing every comma-separated piece of a code
list as an i32, failing when any piece fails, as the clap value parser does. -/
def parseIntList : List Str → Option (List Int)
  | [] => some []
  | v :: r =>
    match parseInt v, parseIntList r with
    | some n, some ns => some (n :: ns)
    | _, _ => none

/-- Modelled from the spec: the run-subcommand argument grammar declared in
cli.rs.  Options may repeat (list options append, scalar options overwrite);
value parsers follow the declared ones: signed code lists are comma-split and
parsed as i32, timeouts as unsigned integers, env pairs through
parse_env_var, directory options through the canonicalization function canon
(standing for parse_canonical_path and parse_ensured_directory, which touch
the filesystem), priorities and log rotations through their FromStr
implementations.  Everything after the double-dash separator is the command,
which is required to be non-empty. -/
def parseRunArgs (canon : Str → Option Str) : List Str → RunParse → Option RunParse
  | [], _ => none
  | t :: rest, acc =>
    if t = str "--" then
      if rest = [] then none
      else some { acc with common := { acc.common with command := rest } }
    else if t = str "--name" then
      match rest with
      | v :: r => parseRunArgs canon r { acc with name := v }
      | [] => none
    else if t = str "--cwd" then
      match rest with
      | v :: r => parseRunArgs canon r { acc with cwd := some v }
      | [] => none
    else if t = str "--stop-timeout" then
      match rest with
      | v :: r =>
        match parseNat v with
        | some n =>
          parseRunArgs canon r { acc with common := { acc.common with stop_timeout := some n } }
        | none => none
      | [] => none
    else if t = str "--restart" then
      parseRunArgs canon rest { acc with common := { acc.common with restart := true } }
    else if t = str "--no-restart" then
      parseRunArgs canon rest { acc with common := { acc.common with no_restart := true } }
    else if t = str "--restart-if" then
      match rest with
      | v :: r =>
        match parseIntList (splitChar ',' v) with
        | some codes =>
          parseRunArgs canon r
            { acc with common :=
              { acc.common with restart_if := acc.common.restart_if ++ codes } }
        | none => none
      | [] => none
    else if t = str "--restart-if-not" then
      match rest with
      | v :: r =>
        match parseIntList (splitChar ',' v) with
        | some codes =>
          parseRunArgs canon r
            { acc with common :=
              { acc.common with restart_if_not := acc.common.restart_if_not ++ codes } }
        | none => none
      | [] => none
    else if t = str "--pass" then
      match rest with
      | v :: r =>
        match parseIntList (splitChar ',' v) with
        | some codes =>
          parseRunArgs canon r
            { acc with common :=
              { acc.common with pass := some (acc.common.pass.getD [] ++ codes) } }
        | none => none
      | [] => none
    else if t = str "--no-log" then
      parseRunArgs canon rest { acc with common := { acc.common with no_log := true } }
    else if t = str "--no-log-cmd" then
      parseRunArgs canon rest { acc with common := { acc.common with no_log_cmd := true } }
    else if t = str "--log-dir" then
      match rest with
      | v :: r =>
        match canon v with
        | some d =>
          parseRunArgs canon r { acc with common := { acc.common with log_dir := some d } }
        | none => none
      | [] => none
    else if t = str "--log-as" then
      match rest with
      | v :: r =>
        parseRunArgs canon r { acc with common := { acc.common with log_as := some v } }
      | [] => none
    else if t = str "--log-cmd-as" then
      match rest with
      | v :: r =>
        parseRunArgs canon r { acc with common := { acc.common with log_cmd_as := some v } }
      | [] => none
    else if t = str "--log-rotate" then
      match rest with
      | v :: r =>
        match LogRotation.from_str v with
        | some lr =>
          parseRunArgs canon r { acc with common := { acc.common with log_rotate := some lr } }
        | none => none
      | [] => none
    else if t = str "--log-retain" then
      match rest with
      | v :: r =>
        match parseNat v with
        | some n =>
          parseRunArgs canon r { acc with common := { acc.common with log_retain := some n } }
        | none => none
      | [] => none
    else if t = str "--pass-start-args" then
      parseRunArgs canon rest
        { acc with common := { acc.common with pass_start_args := true } }
    else if t = str "--env" then
      match rest with
      | v :: r =>
        match parse_env_var v with
        | some kv =>
          parseRunArgs canon r
            { acc with common := { acc.common with env := acc.common.env ++ [kv] } }
        | none => none
      | [] => none
    else if t = str "--path" then
      match rest with
      | v :: r =>
        match canon v with
        | some p =>
          parseRunArgs canon r
            { acc with common := { acc.common with path := acc.common.path ++ [p] } }
        | none => none
      | [] => none
    else if t = str "--path-prepend" then
      match rest with
      | v :: r =>
        match canon v with
        | some p =>
          parseRunArgs canon r
            { acc with common :=
              { acc.common with path_prepend := acc.common.path_prepend ++ [p] } }
        | none => none
      | [] => none
    else if t = str "--priority" then
      match rest with
      | v :: r =>
        match Priority.from_str v with
        | some pr =>
          parseRunArgs canon r { acc with common := { acc.common with priority := some pr } }
        | none => none
      | [] => none
    else none

/-- Modelled from the spec: how many of the four mutually exclusive restart
flags are active; clap's conflicts_with declarations in cli.rs lines 173-215
reject a configuration activating more than one. -/
def restartFlagCount (o : CommonOpts) : Nat :=
  (if o.restart then 1 else 0) + (if o.no_restart then 1 else 0) +
    (if o.restart_if ≠ [] then 1 else 0) + (if o.restart_if_not ≠ [] then 1 else 0)

/-- Modelled from the spec: parsing a token list as the run subcommand,
including the mutual-exclusion validation of the restart flags. -/
def parseRun (canon : Str → Option Str) (tokens : List Str) : Option RunParse :=
  match tokens with
  | [] => none
  | t :: rest =>
    if t = str "run" then
      match parseRunArgs canon rest {} with
      | some r => if restartFlagCount r.common ≤ 1 then some r else none
      | none => none
    else none



/-! ## Stepping the parser over each constructed segment -/

/-- Helper: an option value of the elim-none-some shape is the option itself. -/
theorem opt_elim_id {a : Type} (o : Option a) : o.elim none some = o := by
  cases o <;> rfl

/-- Helper: unsigned numerals round-trip through the option value parser. -/
theorem parseNat_nat_to_str (n : Nat) : parseNat (nat_to_str n) = some n :=
  parseNat_natDigits n

/-- Helper: a rendered code list parses back element by element. -/
theorem parseIntList_map (codes : List Int) :
    parseIntList (codes.map int_to_str) = some codes := by
  induction codes with
  | nil => rfl
  | cons c rest ih => simp [parseIntList, parseInt_int_to_str, ih]

/-- Helper: a joined code list splits and parses back to the codes. -/
theorem parse_int_list (codes : List Int) (hne : codes ≠ []) :
    parseIntList (splitChar ',' (joinWith ',' (codes.map int_to_str))) = some codes := by
  rw [splitChar_joinWith ',' (codes.map int_to_str) (by simpa using hne)
      (fun p hp => by
        rcases List.mem_map.mp hp with ⟨n, _, rfl⟩
        exact int_to_str_no_comma n)]
  exact parseIntList_map codes

/-- Helper: priorities round-trip through their FromStr. -/
theorem Priority.from_str_to_cli (p : Priority) :
    Priority.from_str p.to_cli = some p := by
  cases p <;> rfl

/-- Helper: parser step over the name tokens. -/
theorem parse_step_name (canon : Str → Option Str) (v : Str) (rest : List Str)
    (acc : RunParse) :
    parseRunArgs canon (str "--name" :: v :: rest) acc =
      parseRunArgs canon rest { acc with name := v } := by
  rw [parseRunArgs.eq_def]
  simp [(by decide : str "--name" ≠ str "--")]

/-- Helper: parser step over the stop-timeout segment. -/
theorem parse_step_stopTimeout (canon : Str → Option Str) (o : Option Nat)
    (rest : List Str) (acc : RunParse) :
    parseRunArgs canon (argStopTimeout o ++ rest) acc =
      parseRunArgs canon rest
        { acc with common :=
          { acc.common with stop_timeout := o.elim acc.common.stop_timeout some } } := by
  cases o with
  | none => rfl
  | some st =>
    show parseRunArgs canon (str "--stop-timeout" :: nat_to_str st :: rest) acc = _
    rw [parseRunArgs.eq_def]
    simp [parseNat_nat_to_str, (by decide : str "--stop-timeout" ≠ str "--"), (by decide : str "--stop-timeout" ≠ str "--name"), (by decide : str "--stop-timeout" ≠ str "--cwd")]

/-- Helper: parser step over the restart flag segment. -/
theorem parse_step_restart (canon : Str → Option Str) (b : Bool)
    (rest : List Str) (acc : RunParse) :
    parseRunArgs canon (argRestart b ++ rest) acc =
      parseRunArgs canon rest
        { acc with common := { acc.common with restart := b || acc.common.restart } } := by
  cases b with
  | false => rfl
  | true =>
    show parseRunArgs canon (str "--restart" :: rest) acc = _
    rw [parseRunArgs.eq_def]
    simp [(by decide : str "--restart" ≠ str "--"), (by decide : str "--restart" ≠ str "--name"), (by decide : str "--restart" ≠ str "--cwd"), (by decide : str "--restart" ≠ str "--stop-timeout")]

/-- Helper: parser step over the no-restart flag segment. -/
theorem parse_step_noRestart (canon : Str → Option Str) (b : Bool)
    (rest : List Str) (acc : RunParse) :
    parseRunArgs canon (argNoRestart b ++ rest) acc =
      parseRunArgs canon rest
        { acc with common := { acc.common with no_restart := b || acc.common.no_restart } } := by
  cases b with
  | false => rfl
  | true =>
    show parseRunArgs canon (str "--no-restart" :: rest) acc = _
    rw [parseRunArgs.eq_def]
    simp [(by decide : str "--no-restart" ≠ str "--"), (by decide : str "--no-restart" ≠ str "--name"), (by decide : str "--no-restart" ≠ str "--cwd"), (by decide : str "--no-restart" ≠ str "--stop-timeout"), (by decide : str "--no-restart" ≠ str "--restart")]

/-- Helper: parser step over one restart-if option. -/
theorem parse_step_restartIf_one (canon : Str → Option Str) (v : Str) (rest : List Str)
    (acc : RunParse) (codes : List Int) (hv : parseIntList (splitChar ',' v) = some codes) :
    parseRunArgs canon (str "--restart-if" :: v :: rest) acc =
      parseRunArgs canon rest
        { acc with common :=
          { acc.common with restart_if := acc.common.restart_if ++ codes } } := by
  rw [parseRunArgs.eq_def]
  simp [hv, (by decide : str "--restart-if" ≠ str "--"), (by decide : str "--restart-if" ≠ str "--name"), (by decide : str "--restart-if" ≠ str "--cwd"), (by decide : str "--restart-if" ≠ str "--stop-timeout"), (by decide : str "--restart-if" ≠ str "--restart"), (by decide : str "--restart-if" ≠ str "--no-restart")]

/-- Helper: parser step over the restart-if segment. -/
theorem parse_step_restartIf (canon : Str → Option Str) (codes : List Int)
    (rest : List Str) (acc : RunParse) :
    parseRunArgs canon (argRestartIf codes ++ rest) acc =
      parseRunArgs canon rest
        { acc with common :=
          { acc.common with restart_if := acc.common.restart_if ++ codes } } := by
  cases codes with
  | nil =>
    show parseRunArgs canon rest acc = _
    rw [List.append_nil]
  | cons c cs =>
    show parseRunArgs canon
        (str "--restart-if" :: joinWith ',' ((c :: cs).map int_to_str) :: rest) acc = _
    rw [parse_step_restartIf_one canon _ rest acc (c :: cs)
      (parse_int_list (c :: cs) (List.cons_ne_nil c cs))]

/-- Helper: parser step over one restart-if-not option. -/
theorem parse_step_restartIfNot_one (canon : Str → Option Str) (v : Str) (rest : List Str)
    (acc : RunParse) (codes : List Int) (hv : parseIntList (splitChar ',' v) = some codes) :
    parseRunArgs canon (str "--restart-if-not" :: v :: rest) acc =
      parseRunArgs canon rest
        { acc with common :=
          { acc.common with restart_if_not := acc.common.restart_if_not ++ codes } } := by
  rw [parseRunArgs.eq_def]
  simp [hv, (by decide : str "--restart-if-not" ≠ str "--"), (by decide : str "--restart-if-not" ≠ str "--name"), (by decide : str "--restart-if-not" ≠ str "--cwd"), (by decide : str "--restart-if-not" ≠ str "--stop-timeout"), (by decide : str "--restart-if-not" ≠ str "--restart"), (by decide : str "--restart-if-not" ≠ str "--no-restart"), (by decide : str "--restart-if-not" ≠ str "--restart-if")]

/-- Helper: parser step over the restart-if-not segment. -/
theorem parse_step_restartIfNot (canon : Str → Option Str) (codes : List Int)
    (rest : List Str) (acc : RunParse) :
    parseRunArgs canon (argRestartIfNot codes ++ rest) acc =
      parseRunArgs canon rest
        { acc with common :=
          { acc.common with restart_if_not := acc.common.restart_if_not ++ codes } } := by
  cases codes with
  | nil =>
    show parseRunArgs canon rest acc = _
    rw [List.append_nil]
  | cons c cs =>
    show parseRunArgs canon
        (str "--restart-if-not" :: joinWith ',' ((c :: cs).map int_to_str) :: rest) acc = _
    rw [parse_step_restartIfNot_one canon _ rest acc (c :: cs)
      (parse_int_list (c :: cs) (List.cons_ne_nil c cs))]

/-- Helper: parser step over one pass option. -/
theorem parse_step_pass_one (canon : Str → Option Str) (v : Str) (rest : List Str)
    (acc : RunParse) (codes : List Int) (hv : parseIntList (splitChar ',' v) = some codes) :
    parseRunArgs canon (str "--pass" :: v :: rest) acc =
      parseRunArgs canon rest
        { acc with common :=
          { acc.common with pass := some (acc.common.pass.getD [] ++ codes) } } := by
  rw [parseRunArgs.eq_def]
  simp [hv, (by decide : str "--pass" ≠ str "--"), (by decide : str "--pass" ≠ str "--name"), (by decide : str "--pass" ≠ str "--cwd"), (by decide : str "--pass" ≠ str "--stop-timeout"), (by decide : str "--pass" ≠ str "--restart"), (by decide : str "--pass" ≠ str "--no-restart"), (by decide : str "--pass" ≠ str "--restart-if"), (by decide : str "--pass" ≠ str "--restart-if-not")]

/-- Helper: parser step over the pass segment, excluding the degenerate
explicit empty list whose rendering would be an empty token. -/
theorem parse_step_pass (canon : Str → Option Str) (o : Option (List Int))
    (rest : List Str) (acc : RunParse) (h : o ≠ some []) :
    parseRunArgs canon (argPass o ++ rest) acc =
      parseRunArgs canon rest
        { acc with common :=
          { acc.common with
              pass := o.elim acc.common.pass (fun cs => some (acc.common.pass.getD [] ++ cs)) } } := by
  cases o with
  | none => rfl
  | some cs =>
    cases cs with
    | nil => exact absurd rfl h
    | cons c cs2 =>
      show parseRunArgs canon
          (str "--pass" :: joinWith ',' ((c :: cs2).map int_to_str) :: rest) acc = _
      rw [parse_step_pass_one canon _ rest acc (c :: cs2)
        (parse_int_list (c :: cs2) (List.cons_ne_nil c cs2))]
      rfl

/-- Helper: parser step over the cwd segment. -/
theorem parse_step_cwd (canon : Str → Option Str) (o : Option Str)
    (rest : List Str) (acc : RunParse) :
    parseRunArgs canon (rawCwd o ++ rest) acc =
      parseRunArgs canon rest { acc with cwd := o.elim acc.cwd some } := by
  cases o with
  | none => rfl
  | some c =>
    show parseRunArgs canon (str "--cwd" :: c :: rest) acc = _
    rw [parseRunArgs.eq_def]
    simp [(by decide : str "--cwd" ≠ str "--"), (by decide : str "--cwd" ≠ str "--name")]

/-- Helper: parser step over the no-log flag segment. -/
theorem parse_step_noLog (canon : Str → Option Str) (b : Bool)
    (rest : List Str) (acc : RunParse) :
    parseRunArgs canon (argNoLog b ++ rest) acc =
      parseRunArgs canon rest
        { acc with common := { acc.common with no_log := b || acc.common.no_log } } := by
  cases b with
  | false => rfl
  | true =>
    show parseRunArgs canon (str "--no-log" :: rest) acc = _
    rw [parseRunArgs.eq_def]
    simp [(by decide : str "--no-log" ≠ str "--"), (by decide : str "--no-log" ≠ str "--name"), (by decide : str "--no-log" ≠ str "--cwd"), (by decide : str "--no-log" ≠ str "--stop-timeout"), (by decide : str "--no-log" ≠ str "--restart"), (by decide : str "--no-log" ≠ str "--no-restart"), (by decide : str "--no-log" ≠ str "--restart-if"), (by decide : str "--no-log" ≠ str "--restart-if-not"), (by decide : str "--no-log" ≠ str "--pass")]

/-- Helper: parser step over the no-log-cmd flag segment. -/
theorem parse_step_noLogCmd (canon : Str → Option Str) (b : Bool)
    (rest : List Str) (acc : RunParse) :
    parseRunArgs canon (argNoLogCmd b ++ rest) acc =
      parseRunArgs canon rest
        { acc with common := { acc.common with no_log_cmd := b || acc.common.no_log_cmd } } := by
  cases b with
  | false => rfl
  | true =>
    show parseRunArgs canon (str "--no-log-cmd" :: rest) acc = _
    rw [parseRunArgs.eq_def]
    simp [(by decide : str "--no-log-cmd" ≠ str "--"), (by decide : str "--no-log-cmd" ≠ str "--name"), (by decide : str "--no-log-cmd" ≠ str "--cwd"), (by decide : str "--no-log-cmd" ≠ str "--stop-timeout"), (by decide : str "--no-log-cmd" ≠ str "--restart"), (by decide : str "--no-log-cmd" ≠ str "--no-restart"), (by decide : str "--no-log-cmd" ≠ str "--restart-if"), (by decide : str "--no-log-cmd" ≠ str "--restart-if-not"), (by decide : str "--no-log-cmd" ≠ str "--pass"), (by decide : str "--no-log-cmd" ≠ str "--no-log")]

/-- Helper: parser step over the log-dir segment, for directories the
canonicalization function fixes. -/
theorem parse_step_logDir (canon : Str → Option Str) (o : Option Str)
    (rest : List Str) (acc : RunParse) (h : ∀ d, o = some d → canon d = some d) :
    parseRunArgs canon (rawLogDir o ++ rest) acc =
      parseRunArgs canon rest
        { acc with common :=
          { acc.common with log_dir := o.elim acc.common.log_dir some } } := by
  cases o with
  | none => rfl
  | some d =>
    show parseRunArgs canon (str "--log-dir" :: d :: rest) acc = _
    rw [parseRunArgs.eq_def]
    simp [h d rfl, (by decide : str "--log-dir" ≠ str "--"), (by decide : str "--log-dir" ≠ str "--name"), (by decide : str "--log-dir" ≠ str "--cwd"), (by decide : str "--log-dir" ≠ str "--stop-timeout"), (by decide : str "--log-dir" ≠ str "--restart"), (by decide : str "--log-dir" ≠ str "--no-restart"), (by decide : str "--log-dir" ≠ str "--restart-if"), (by decide : str "--log-dir" ≠ str "--restart-if-not"), (by decide : str "--log-dir" ≠ str "--pass"), (by decide : str "--log-dir" ≠ str "--no-log"), (by decide : str "--log-dir" ≠ str "--no-log-cmd")]

/-- Helper: parser step over the pass-start-args flag segment. -/
theorem parse_step_passStartArgs (canon : Str → Option Str) (b : Bool)
    (rest : List Str) (acc : RunParse) :
    parseRunArgs canon (argPassStartArgs b ++ rest) acc =
      parseRunArgs canon rest
        { acc with common :=
          { acc.common with pass_start_args := b || acc.common.pass_start_args } } := by
  cases b with
  | false => rfl
  | true =>
    show parseRunArgs canon (str "--pass-start-args" :: rest) acc = _
    rw [parseRunArgs.eq_def]
    simp [(by decide : str "--pass-start-args" ≠ str "--"), (by decide : str "--pass-start-args" ≠ str "--name"), (by decide : str "--pass-start-args" ≠ str "--cwd"), (by decide : str "--pass-start-args" ≠ str "--stop-timeout"), (by decide : str "--pass-start-args" ≠ str "--restart"), (by decide : str "--pass-start-args" ≠ str "--no-restart"), (by decide : str "--pass-start-args" ≠ str "--restart-if"), (by decide : str "--pass-start-args" ≠ str "--restart-if-not"), (by decide : str "--pass-start-args" ≠ str "--pass"), (by decide : str "--pass-start-args" ≠ str "--no-log"), (by decide : str "--pass-start-args" ≠ str "--no-log-cmd"), (by decide : str "--pass-start-args" ≠ str "--log-dir"), (by decide : str "--pass-start-args" ≠ str "--log-as"), (by decide : str "--pass-start-args" ≠ str "--log-cmd-as"), (by decide : str "--pass-start-args" ≠ str "--log-rotate"), (by decide : str "--pass-start-args" ≠ str "--log-retain")]

/-- Helper: parser step over a single env pair. -/
theorem parse_step_env_one (canon : Str → Option Str) (v : Str) (rest : List Str)
    (acc : RunParse) (kv : Str × Str) (hv : parse_env_var v = some kv) :
    parseRunArgs canon (str "--env" :: v :: rest) acc =
      parseRunArgs canon rest
        { acc with common := { acc.common with env := acc.common.env ++ [kv] } } := by
  rw [parseRunArgs.eq_def]
  simp [hv, (by decide : str "--env" ≠ str "--"), (by decide : str "--env" ≠ str "--name"), (by decide : str "--env" ≠ str "--cwd"), (by decide : str "--env" ≠ str "--stop-timeout"), (by decide : str "--env" ≠ str "--restart"), (by decide : str "--env" ≠ str "--no-restart"), (by decide : str "--env" ≠ str "--restart-if"), (by decide : str "--env" ≠ str "--restart-if-not"), (by decide : str "--env" ≠ str "--pass"), (by decide : str "--env" ≠ str "--no-log"), (by decide : str "--env" ≠ str "--no-log-cmd"), (by decide : str "--env" ≠ str "--log-dir"), (by decide : str "--env" ≠ str "--log-as"), (by decide : str "--env" ≠ str "--log-cmd-as"), (by decide : str "--env" ≠ str "--log-rotate"), (by decide : str "--env" ≠ str "--log-retain"), (by decide : str "--env" ≠ str "--pass-start-args")]

/-- Helper: parser step over the whole env segment, for pairs whose keys have
no equals sign. -/
theorem parse_step_env (canon : Str → Option Str) (env : List (Str × Str))
    (rest : List Str) (acc : RunParse) (h : ∀ kv ∈ env, '=' ∉ kv.1) :
    parseRunArgs canon (rawEnv env ++ rest) acc =
      parseRunArgs canon rest
        { acc with common := { acc.common with env := acc.common.env ++ env } } := by
  induction env generalizing acc with
  | nil =>
    show parseRunArgs canon rest acc = _
    rw [List.append_nil]
  | cons kv tl ih =>
    have hk : '=' ∉ kv.1 := h kv (List.mem_cons_self kv tl)
    have htl : ∀ x ∈ tl, '=' ∉ x.1 := fun x hx => h x (List.mem_cons_of_mem kv hx)
    show parseRunArgs canon
        (str "--env" :: (kv.1 ++ '=' :: kv.2) :: (rawEnv tl ++ rest)) acc = _
    rw [parse_step_env_one canon _ _ acc (kv.1, kv.2)
      (parse_env_var_roundtrip kv.1 kv.2 hk)]
    rw [ih _ htl]
    simp

/-- Helper: parser step over a single path entry. -/
theorem parse_step_path_one (canon : Str → Option Str) (v : Str) (rest : List Str)
    (acc : RunParse) (p : Str) (hv : canon v = some p) :
    parseRunArgs canon (str "--path" :: v :: rest) acc =
      parseRunArgs canon rest
        { acc with common := { acc.common with path := acc.common.path ++ [p] } } := by
  rw [parseRunArgs.eq_def]
  simp [hv, (by decide : str "--path" ≠ str "--"), (by decide : str "--path" ≠ str "--name"), (by decide : str "--path" ≠ str "--cwd"), (by decide : str "--path" ≠ str "--stop-timeout"), (by decide : str "--path" ≠ str "--restart"), (by decide : str "--path" ≠ str "--no-restart"), (by decide : str "--path" ≠ str "--restart-if"), (by decide : str "--path" ≠ str "--restart-if-not"), (by decide : str "--path" ≠ str "--pass"), (by decide : str "--path" ≠ str "--no-log"), (by decide : str "--path" ≠ str "--no-log-cmd"), (by decide : str "--path" ≠ str "--log-dir"), (by decide : str "--path" ≠ str "--log-as"), (by decide : str "--path" ≠ str "--log-cmd-as"), (by decide : str "--path" ≠ str "--log-rotate"), (by decide : str "--path" ≠ str "--log-retain"), (by decide : str "--path" ≠ str "--pass-start-args"), (by decide : str "--path" ≠ str "--env")]

/-- Helper: parser step over the whole path segment, for entries the
canonicalization function fixes. -/
theorem parse_step_path (canon : Str → Option Str) (path : List Str)
    (rest : List Str) (acc : RunParse) (h : ∀ p ∈ path, canon p = some p) :
    parseRunArgs canon (rawPath path ++ rest) acc =
      parseRunArgs canon rest
        { acc with common := { acc.common with path := acc.common.path ++ path } } := by
  induction path generalizing acc with
  | nil =>
    show parseRunArgs canon rest acc = _
    rw [List.append_nil]
  | cons p tl ih =>
    have hp : canon p = some p := h p (List.mem_cons_self p tl)
    have htl : ∀ x ∈ tl, canon x = some x := fun x hx => h x (List.mem_cons_of_mem p hx)
    show parseRunArgs canon (str "--path" :: p :: (rawPath tl ++ rest)) acc = _
    rw [parse_step_path_one canon _ _ acc p hp]
    rw [ih _ htl]
    simp

/-- Helper: parser step over the priority segment. -/
theorem parse_step_priority (canon : Str → Option Str) (o : Option Priority)
    (rest : List Str) (acc : RunParse) :
    parseRunArgs canon (argPriority o ++ rest) acc =
      parseRunArgs canon rest
        { acc with common :=
          { acc.common with priority := o.elim acc.common.priority some } } := by
  cases o with
  | none => rfl
  | some pr =>
    show parseRunArgs canon (str "--priority" :: pr.to_cli :: rest) acc = _
    rw [parseRunArgs.eq_def]
    simp [Priority.from_str_to_cli, (by decide : str "--priority" ≠ str "--"), (by decide : str "--priority" ≠ str "--name"), (by decide : str "--priority" ≠ str "--cwd"), (by decide : str "--priority" ≠ str "--stop-timeout"), (by decide : str "--priority" ≠ str "--restart"), (by decide : str "--priority" ≠ str "--no-restart"), (by decide : str "--priority" ≠ str "--restart-if"), (by decide : str "--priority" ≠ str "--restart-if-not"), (by decide : str "--priority" ≠ str "--pass"), (by decide : str "--priority" ≠ str "--no-log"), (by decide : str "--priority" ≠ str "--no-log-cmd"), (by decide : str "--priority" ≠ str "--log-dir"), (by decide : str "--priority" ≠ str "--log-as"), (by decide : str "--priority" ≠ str "--log-cmd-as"), (by decide : str "--priority" ≠ str "--log-rotate"), (by decide : str "--priority" ≠ str "--log-retain"), (by decide : str "--priority" ≠ str "--pass-start-args"), (by decide : str "--priority" ≠ str "--env"), (by decide : str "--priority" ≠ str "--path"), (by decide : str "--priority" ≠ str "--path-prepend")]

/-- Helper: parser step over the separator and trailing command. -/
theorem parse_step_done (canon : Str → Option Str) (cmd : List Str) (acc : RunParse) :
    parseRunArgs canon (str "--" :: cmd) acc =
      if cmd = [] then none
      else some { acc with common := { acc.common with command := cmd } } := by
  rw [parseRunArgs.eq_def]
  simp

/-! ## Well-formedness of the raw tokens -/

/-- Token property needed for the command-line split to invert quoting. -/
def goodTok (t : Str) : Prop := t ≠ [] ∧ '"' ∉ t

/-- Helper: stop-timeout tokens are well formed. -/
theorem wf_argStopTimeout (o : Option Nat) : ∀ t ∈ argStopTimeout o, goodTok t := by
  cases o with
  | none => simp [argStopTimeout]
  | some st =>
    intro t ht
    rcases List.mem_cons.mp ht with rfl | ht
    · exact ⟨by decide, by decide⟩
    · rcases List.mem_cons.mp ht with rfl | ht
      · exact ⟨natDigits_ne_nil st, nat_to_str_no_quote st⟩
      · cases ht

/-- Helper: the restart-if token pair is well formed. -/
theorem wf_argRestartIf (codes : List Int) : ∀ t ∈ argRestartIf codes, goodTok t := by
  unfold argRestartIf
  split
  case isTrue h =>
    intro t ht
    rcases List.mem_cons.mp ht with rfl | ht
    · exact ⟨by decide, by decide⟩
    · rcases List.mem_cons.mp ht with rfl | ht
      · refine ⟨intJoin_ne_nil codes (by simpa using h), ?_⟩
        intro hmem
        exact (intJoin_clean codes '"' hmem).2 rfl
      · cases ht
  case isFalse h => simp

/-- Helper: the restart-if-not token pair is well formed. -/
theorem wf_argRestartIfNot (codes : List Int) : ∀ t ∈ argRestartIfNot codes, goodTok t := by
  unfold argRestartIfNot
  split
  case isTrue h =>
    intro t ht
    rcases List.mem_cons.mp ht with rfl | ht
    · exact ⟨by decide, by decide⟩
    · rcases List.mem_cons.mp ht with rfl | ht
      · refine ⟨intJoin_ne_nil codes (by simpa using h), ?_⟩
        intro hmem
        exact (intJoin_clean codes '"' hmem).2 rfl
      · cases ht
  case isFalse h => simp

/-- Helper: the pass token pair is well formed when the list is not the
explicit empty one. -/
theorem wf_argPass (o : Option (List Int)) (h : o ≠ some []) :
    ∀ t ∈ argPass o, goodTok t := by
  cases o with
  | none => simp [argPass]
  | some cs =>
    intro t ht
    rcases List.mem_cons.mp ht with rfl | ht
    · exact ⟨by decide, by decide⟩
    · rcases List.mem_cons.mp ht with rfl | ht
      · refine ⟨intJoin_ne_nil cs (fun e => h (by rw [e])), ?_⟩
        intro hmem
        exact (intJoin_clean cs '"' hmem).2 rfl
      · cases ht

/-- Helper: the env tokens are well formed for quote-free pairs. -/
theorem wf_rawEnv (env : List (Str × Str))
    (h : ∀ kv ∈ env, '"' ∉ kv.1 ∧ '"' ∉ kv.2) :
    ∀ t ∈ rawEnv env, goodTok t := by
  intro t ht
  rcases List.mem_flatMap.mp ht with ⟨kv, hkv, hm⟩
  rcases List.mem_cons.mp hm with rfl | hm
  · exact ⟨by decide, by decide⟩
  · rcases List.mem_cons.mp hm with rfl | hm
    · refine ⟨by simp, ?_⟩
      intro hmem
      rcases List.mem_append.mp hmem with hmem | hmem
      · exact (h kv hkv).1 hmem
      · rcases List.mem_cons.mp hmem with e | hmem
        · exact absurd e (by decide)
        · exact (h kv hkv).2 hmem
    · cases hm

/-- Helper: the path tokens are well formed for good entries. -/
theorem wf_rawPath (path : List Str) (h : ∀ p ∈ path, p ≠ [] ∧ '"' ∉ p) :
    ∀ t ∈ rawPath path, goodTok t := by
  intro t ht
  rcases List.mem_flatMap.mp ht with ⟨p, hp, hm⟩
  rcases List.mem_cons.mp hm with rfl | hm
  · exact ⟨by decide, by decide⟩
  · rcases List.mem_cons.mp hm with rfl | hm
    · exact h _ hp
    · cases hm

/-- Helper: the priority token pair is well formed. -/
theorem wf_argPriority (o : Option Priority) : ∀ t ∈ argPriority o, goodTok t := by
  cases o with
  | none => simp [argPriority]
  | some pr =>
    intro t ht
    rcases List.mem_cons.mp ht with rfl | ht
    · exact ⟨by decide, by decide⟩
    · rcases List.mem_cons.mp ht with rfl | ht
      · cases pr <;> exact ⟨by decide, by decide⟩
      · cases ht

/-- Helper: every raw run-argument token is well formed under the stated
side conditions on the add invocation. -/
theorem rawRunArgs_wf (name : Str) (cwd : Option Str) (opts : CommonOpts)
    (hname : name ≠ [] ∧ '"' ∉ name)
    (hcwd : ∀ c, cwd = some c → c ≠ [] ∧ '"' ∉ c)
    (hlog : ∀ d, opts.log_dir = some d → d ≠ [] ∧ '"' ∉ d)
    (henv : ∀ kv ∈ opts.env, '"' ∉ kv.1 ∧ '"' ∉ kv.2)
    (hpath : ∀ p ∈ opts.path, p ≠ [] ∧ '"' ∉ p)
    (hpass : opts.pass ≠ some []) :
    ∀ t ∈ rawRunArgs name cwd opts, goodTok t := by
  intro t ht
  unfold rawRunArgs at ht
  simp only [List.append_assoc, List.mem_append, List.mem_cons, List.not_mem_nil, or_false] at ht
  rcases ht with (rfl | rfl | rfl) | ht
  · exact ⟨by decide, by decide⟩
  · exact ⟨by decide, by decide⟩
  · exact hname
  rcases ht with ht | ht
  · exact wf_argStopTimeout opts.stop_timeout t ht
  rcases ht with ht | ht
  · cases hb : opts.restart <;> rw [hb] at ht <;> simp [argRestart] at ht
    subst ht
    exact ⟨by decide, by decide⟩
  rcases ht with ht | ht
  · cases hb : opts.no_restart <;> rw [hb] at ht <;> simp [argNoRestart] at ht
    subst ht
    exact ⟨by decide, by decide⟩
  rcases ht with ht | ht
  · exact wf_argRestartIf opts.restart_if t ht
  rcases ht with ht | ht
  · exact wf_argRestartIfNot opts.restart_if_not t ht
  rcases ht with ht | ht
  · exact wf_argPass opts.pass hpass t ht
  rcases ht with ht | ht
  · cases hc : cwd with
    | none => rw [hc] at ht; cases ht
    | some c =>
      rw [hc] at ht
      rcases List.mem_cons.mp ht with rfl | ht2
      · exact ⟨by decide, by decide⟩
      · rcases List.mem_cons.mp ht2 with rfl | ht2
        · exact hcwd t hc
        · cases ht2
  rcases ht with ht | ht
  · cases hb : opts.no_log <;> rw [hb] at ht <;> simp [argNoLog] at ht
    subst ht
    exact ⟨by decide, by decide⟩
  rcases ht with ht | ht
  · cases hb : opts.no_log_cmd <;> rw [hb] at ht <;> simp [argNoLogCmd] at ht
    subst ht
    exact ⟨by decide, by decide⟩
  rcases ht with ht | ht
  · cases hd : opts.log_dir with
    | none => rw [hd] at ht; cases ht
    | some d =>
      rw [hd] at ht
      rcases List.mem_cons.mp ht with rfl | ht2
      · exact ⟨by decide, by decide⟩
      · rcases List.mem_cons.mp ht2 with rfl | ht2
        · exact hlog t hd
        · cases ht2
  rcases ht with ht | ht
  · cases hb : opts.pass_start_args <;> rw [hb] at ht <;> simp [argPassStartArgs] at ht
    subst ht
    exact ⟨by decide, by decide⟩
  rcases ht with ht | ht
  · exact wf_rawEnv opts.env henv t ht
  rcases ht with ht | ht
  · exact wf_rawPath opts.path hpath t ht
  · exact wf_argPriority opts.priority t ht

/-! ## Splitting the registered binPath back into tokens -/

/-- Helper: the constructed run-argument list is never empty. -/
theorem construct_ne_nil (name : Str) (cwd : Option Str) (opts : CommonOpts) :
    construct_shawl_run_args name cwd opts ≠ [] := by
  unfold construct_shawl_run_args
  simp

/-- Helper: the binPath tail is the space-join of the full token sequence. -/
theorem binPathTail_eq_join (name : Str) (cwd : Option Str) (opts : CommonOpts)
    (hcmd : opts.command ≠ []) :
    binPathTail name cwd opts =
      joinWith ' '
        (construct_shawl_run_args name cwd opts ++ [str "--"] ++
          prepare_command opts.command) := by
  unfold binPathTail
  have hB : prepare_command opts.command ≠ [] := by
    unfold prepare_command
    simpa using hcmd
  rw [joinWith_append ' ' _ (prepare_command opts.command)
      (by simp [construct_ne_nil name cwd opts]) hB]
  rw [joinWith_append ' ' _ [str "--"] (construct_ne_nil name cwd opts) (by simp)]
  have hsep : str " -- " = [' ', '-', '-', ' '] := by decide
  have hdd : joinWith ' ' [str "--"] = ['-', '-'] := by decide
  rw [hsep, hdd]
  simp

/-- Helper: splitting the binPath tail recovers the raw token sequence. -/
theorem splitArgs_binPathTail (name : Str) (cwd : Option Str) (opts : CommonOpts)
    (hname : name ≠ [] ∧ '"' ∉ name)
    (hcwd : ∀ c, cwd = some c → c ≠ [] ∧ '"' ∉ c)
    (hlog : ∀ d, opts.log_dir = some d → d ≠ [] ∧ '"' ∉ d)
    (henv : ∀ kv ∈ opts.env, '"' ∉ kv.1 ∧ '"' ∉ kv.2)
    (hpath : ∀ p ∈ opts.path, p ≠ [] ∧ '"' ∉ p)
    (hpass : opts.pass ≠ some [])
    (hcmd : opts.command ≠ [] ∧ ∀ w ∈ opts.command, w ≠ [] ∧ '"' ∉ w) :
    splitArgs (binPathTail name cwd opts) =
      rawRunArgs name cwd opts ++ [str "--"] ++ opts.command := by
  rw [binPathTail_eq_join name cwd opts hcmd.1]
  rw [construct_eq_map_quote]
  have hmap : (rawRunArgs name cwd opts).map quote ++ [str "--"] ++
      prepare_command opts.command =
      ((rawRunArgs name cwd opts ++ [str "--"] ++ opts.command).map quote) := by
    simp [prepare_command, List.map_append,
      show quote (str "--") = str "--" from by decide]
  rw [hmap]
  apply splitArgs_joinWith_quote
  intro t ht
  rcases List.mem_append.mp ht with ht | ht
  · rcases List.mem_append.mp ht with ht | ht
    · exact rawRunArgs_wf name cwd opts hname hcwd hlog henv hpath hpass t ht
    · rcases List.mem_cons.mp ht with rfl | ht
      · exact ⟨by decide, by decide⟩
      · cases ht
  · exact hcmd.2 t ht

/-- Helper: full round trip from an add invocation through the registered
binPath to a parsed run policy, with the non-forwarded options coming back
at their defaults. -/
theorem parse_binPathTail_core (canon : Str → Option Str) (name : Str)
    (cwd : Option Str) (opts : CommonOpts)
    (hname : name ≠ [] ∧ '"' ∉ name)
    (hcwd : ∀ c, cwd = some c → c ≠ [] ∧ '"' ∉ c)
    (hlog : ∀ d, opts.log_dir = some d → d ≠ [] ∧ '"' ∉ d ∧ canon d = some d)
    (henv : ∀ kv ∈ opts.env, '=' ∉ kv.1 ∧ '"' ∉ kv.1 ∧ '"' ∉ kv.2)
    (hpath : ∀ p ∈ opts.path, p ≠ [] ∧ '"' ∉ p ∧ canon p = some p)
    (hpass : opts.pass ≠ some [])
    (hcmd : opts.command ≠ [] ∧ ∀ w ∈ opts.command, w ≠ [] ∧ '"' ∉ w)
    (hexcl : restartFlagCount opts ≤ 1) :
    parseRun canon (splitArgs (binPathTail name cwd opts)) =
      some
        { name := name,
          cwd := cwd,
          common :=
            { opts with
                path_prepend := ([] : List Str),
                log_as := none,
                log_cmd_as := none,
                log_rotate := none,
                log_retain := none } } := by
  rw [splitArgs_binPathTail name cwd opts hname hcwd
      (fun d hd => ⟨(hlog d hd).1, (hlog d hd).2.1⟩)
      (fun kv hkv => ⟨(henv kv hkv).2.1, (henv kv hkv).2.2⟩)
      (fun p hp => ⟨(hpath p hp).1, (hpath p hp).2.1⟩) hpass hcmd]
  unfold rawRunArgs parseRun
  simp only [List.append_assoc, List.cons_append, List.nil_append]
  rw [if_pos trivial]
  rw [parse_step_name, parse_step_stopTimeout, parse_step_restart, parse_step_noRestart,
    parse_step_restartIf, parse_step_restartIfNot,
    parse_step_pass canon opts.pass _ _ hpass, parse_step_cwd, parse_step_noLog,
    parse_step_noLogCmd,
    parse_step_logDir canon opts.log_dir _ _ (fun d hd => (hlog d hd).2.2),
    parse_step_passStartArgs,
    parse_step_env canon opts.env _ _ (fun kv hkv => (henv kv hkv).1),
    parse_step_path canon opts.path _ _ (fun p hp => (hpath p hp).2.2),
    parse_step_priority, parse_step_done]
  rw [if_neg hcmd.1]
  simp only [Bool.or_false, List.nil_append, List.append_nil, Option.getD, opt_elim_id]
  have hflags : restartFlagCount
      { opts with
          path_prepend := ([] : List Str),
          log_as := none,
          log_cmd_as := none,
          log_rotate := none,
          log_retain := none } ≤ 1 := hexcl
  rw [if_pos hflags]

/-- Counterexample for C3: an add invocation with a --path-prepend entry — an
option that does affect the run subcommand (service.rs lines 213-219) — is
not forwarded by construct_shawl_run_args, so parsing the registered binPath
yields a policy whose path_prepend is empty rather than the original one. -/
theorem add_binpath_roundtrip_counterexample :
    (parseRun (fun s => some s)
        (splitArgs (binPathTail (str "s") none
          { path_prepend := [str "d"], command := [str "c"] }))).map
        (fun r => r.common.path_prepend) = some [] ∧
      ({ path_prepend := [str "d"], command := [str "c"] } : CommonOpts).path_prepend ≠ [] := by
  constructor
  · rw [parse_binPathTail_core (fun s => some s) (str "s") none
      { path_prepend := [str "d"], command := [str "c"] }
      ⟨by decide, by decide⟩
      (by intro c hc; simp at hc)
      (by intro d hd; simp at hd)
      (by intro kv hkv; simp at hkv)
      (by intro p hp; simp at hp)
      (by decide)
      ⟨by decide, by decide⟩
      (by decide)]
    rfl
  · decide

/-- C3 as amended: for every add invocation whose tokens are well formed
(non-empty, free of double quotes, env keys without equals signs, path and
log-dir entries fixed by canonicalization, no explicit empty pass list, and
the restart flags mutually exclusive), parsing the binPath constructed by
add as run arguments yields a policy equal to the one of the original add
invocation on every field that construct_shawl_run_args forwards — pass,
restart, no_restart, restart_if, restart_if_not, stop_timeout, no_log,
no_log_cmd, log_dir, pass_start_args, env, path, priority, the command and
the cwd — while the options add fails to forward even though they affect the
run subcommand (path_prepend, log_as, log_cmd_as, log_rotate, log_retain)
come back at their defaults, in addition to the non-run-only fields
(dependencies, add-mode cwd relativity) excluded by the spec. -/
theorem add_binpath_roundtrip (canon : Str → Option Str) (name : Str)
    (cwd : Option Str) (opts : CommonOpts)
    (hname : name ≠ [] ∧ '"' ∉ name)
    (hcwd : ∀ c, cwd = some c → c ≠ [] ∧ '"' ∉ c)
    (hlog : ∀ d, opts.log_dir = some d → d ≠ [] ∧ '"' ∉ d ∧ canon d = some d)
    (henv : ∀ kv ∈ opts.env, '=' ∉ kv.1 ∧ '"' ∉ kv.1 ∧ '"' ∉ kv.2)
    (hpath : ∀ p ∈ opts.path, p ≠ [] ∧ '"' ∉ p ∧ canon p = some p)
    (hpass : opts.pass ≠ some [])
    (hcmd : opts.command ≠ [] ∧ ∀ w ∈ opts.command, w ≠ [] ∧ '"' ∉ w)
    (hexcl : restartFlagCount opts ≤ 1) :
    parseRun canon (splitArgs (binPathTail name cwd opts)) =
      some
        { name := name,
          cwd := cwd,
          common :=
            { opts with
                path_prepend := ([] : List Str),
                log_as := none,
                log_cmd_as := none,
                log_rotate := none,
                log_retain := none } } :=
  parse_binPathTail_core canon name cwd opts hname hcwd hlog henv hpath hpass hcmd hexcl

/-- Witness for C3 (amended) at a concrete input exercising quoting, code
lists, env pairs and paths. -/
theorem add_binpath_roundtrip_witness :
    parseRun (fun s => some s)
      (splitArgs (binPathTail (str "my svc") (some (str "C:/work dir"))
        { pass := some [0, 7],
          restart := true,
          stop_timeout := some 3000,
          env := [(str "K", str "a b")],
          path := [str "C:/p"],
          command := [str "foo bar", str "--baz"] })) =
      some
        { name := str "my svc",
          cwd := some (str "C:/work dir"),
          common :=
            { pass := some [0, 7],
              restart := true,
              stop_timeout := some 3000,
              env := [(str "K", str "a b")],
              path := [str "C:/p"],
              command := [str "foo bar", str "--baz"] } } :=
  add_binpath_roundtrip (fun s => some s) (str "my svc") (some (str "C:/work dir"))
    { pass := some [0, 7],
      restart := true,
      stop_timeout := some 3000,
      env := [(str "K", str "a b")],
      path := [str "C:/p"],
      command := [str "foo bar", str "--baz"] }
    ⟨by decide, by decide⟩
    (by intro c hc; cases hc; exact ⟨by decide, by decide⟩)
    (by intro d hd; simp at hd)
    (by decide)
    (by decide)
    (by decide)
    ⟨by decide, by decide⟩
    (by decide)

end Shawl
